import Mathlib

/-!
Aggregating gateway (package `gateway`): topic tree, topic index, client
sessions and the protocol handlers of `agggateway.go`.

The handlers `publish`, `distribute`, `handle_CONNECT`, `handle_REGISTER`,
`handle_REGACK`, `handle_SUBSCRIBE` and `handle_DISCONNECT` are embedded from
`src/gateway/gate/agggateway.go`.
The topic tree, the topic-id index, the client registry and the client session
are code of the repository that is not among the sources; they are modelled
from the specification (and, for the tree, pinned by
`src/gateway/gate/unit_topictree_test.go`).  Each such definition says so in
its doc comment.

Effects are made explicit: a handler maps a state to a `Run`, holding the new
state, the list of externally visible events it caused, and whether it ended
in a Go panic.  Log output (`fmt.Printf`) is not an event.
-/

namespace Gateway

/-! ## Wire-level data -/

/-- Handle of a UDP connection (Go `uConn`, a wrapper of `*net.UDPConn`). -/
abbrev uConn := Nat

/-- Remote datagram address (Go `uAddr`, a wrapper of `*net.UDPAddr`). -/
abbrev uAddr := Nat

/-- Nullable reference to a heap-allocated `Client` (Go `*Client`); `0` is
`nil`, reference `p + 1` is cell `p` of the heap. -/
abbrev ClientRef := Nat

/-- PUBLISH as built by `NewPublishMessage(dup, ret, qos, topicidtype, topicid,
msgid, pay)`; the fields are in the order of the constructor's arguments. -/
structure PublishMessage where
  dup : Bool
  retain : Bool
  qos : Nat
  topicIdType : Nat
  topicId : Nat
  msgId : Nat
  data : List Nat
  deriving DecidableEq, Repr

/-- The gateway-originated messages, one constructor per `New…Message` call of
`agggateway.go`, arguments in the order of the call. -/
inductive Message where
  | connack (returnCode : Nat)
  | register (topicId : Nat) (msgId : Nat) (topicName : String)
  | regack (topicId : Nat) (msgId : Nat) (returnCode : Nat)
  | publish (pm : PublishMessage)
  | suback (returnCode : Nat) (qos : Nat) (topicId : Nat) (msgId : Nat)
  | pingresp
  deriving DecidableEq, Repr

/-- Decoded SUBSCRIBE (`*SubscribeMessage`): the accessors the handler reads. -/
structure SubscribeMessage where
  TopicIdType : Nat
  TopicName : String
  QoS : Nat
  MsgId : Nat
  deriving DecidableEq, Repr

/-- Decoded REGACK (`*RegackMessage`). -/
structure RegackMessage where
  TopicId : Nat
  MsgId : Nat
  ReturnCode : Nat
  deriving DecidableEq, Repr

/-- Decoded REGISTER (`*RegisterMessage`): the accessors the handler reads. -/
structure RegisterMessage where
  TopicName : String
  MsgId : Nat
  deriving DecidableEq, Repr

/-- Decoded CONNECT (`*ConnectMessage`): the accessors the handler reads. -/
structure ConnectMessage where
  ClientId : String
  Will : Bool
  deriving DecidableEq, Repr

/-- Decoded DISCONNECT (`*DisconnectMessage`). -/
structure DisconnectMessage where
  Duration : Nat
  deriving DecidableEq, Repr

/-- Message delivered by the upstream broker (`MQTT.Message`): the accessors
`publish` reads. -/
structure BrokerMessage where
  Topic : String
  Payload : List Nat
  QoS : Nat
  RetainedFlag : Bool
  DupFlag : Bool
  deriving DecidableEq, Repr

/-- Externally visible effects of the gateway.  `write` is a datagram sent to a
device (`client.Write` or `c.c.WriteToUDP`), `startSubscription` is
`mqttclient.StartSubscription(handler, topic, qos)`, `upstreamPublish` is
`mqttclient.Publish`.  `unsubscribe` is the northbound `unsubscribe(topic)` of
the specification; no code of `agggateway.go` produces it. -/
inductive Event where
  | write (conn : uConn) (addr : uAddr) (m : Message)
  | startSubscription (topic : String) (qos : Nat)
  | upstreamPublish (qos : Nat) (topic : String) (data : List Nat)
  | unsubscribe (topic : String)
  deriving DecidableEq, Repr

/-! ## Topic strings -/

/-- Tokenise a topic on `/`: a leading `/` gives a leading empty level, a
trailing `/` a trailing empty level, `//` an empty level in between. -/
def splitOnSlash : List Char → List (List Char)
  | [] => [[]]
  | c :: cs =>
    if c = '/' then [] :: splitOnSlash cs
    else
      match splitOnSlash cs with
      | [] => [[c]]
      | l :: ls => (c :: l) :: ls

/-- The levels of a topic string. -/
def splitTopic (topic : String) : List String :=
  (splitOnSlash topic.data).map String.mk

/-- Modelled from the spec: `ContainsWildcard` (not among the sources), "the
topic contains a wildcard", i.e. a `+` or a `#` character. -/
def ContainsWildcard (topic : String) : Bool :=
  topic.data.any (fun c => c = '+' || c = '#')

/-- Modelled from the spec: the level grammar of section 3.  An empty level is
legal only as the leading level of a string that begins with `/`; `#` only as
the whole final level; `+` only as a whole level. -/
def levelOk (first last : Bool) (l : String) : Bool :=
  if l = "" then first && !last
  else if l = "#" then last
  else if l = "+" then true
  else !(l.data.contains '#') && !(l.data.contains '+')

/-- Modelled from the spec: every level of the list obeys `levelOk`; `first`
tells whether the head is the first level of the topic. -/
def levelsOk : Bool → List String → Bool
  | _, [] => false
  | first, [l] => levelOk first true l
  | first, l :: l2 :: ls => levelOk first false l && levelsOk false (l2 :: ls)

/-- Modelled from the spec: a topic accepted on subscribe. -/
def validSubscriptionTopic (topic : String) : Bool :=
  levelsOk true (splitTopic topic)

/-- Modelled from the spec: a well-formed concrete publish topic, one that
obeys the level grammar and contains no wildcard. -/
def validPublishTopic (topic : String) : Bool :=
  validSubscriptionTopic topic && !ContainsWildcard topic

/-! ## Topic tree -/

/-- Modelled from the spec: a topic tree node (the tree's file is not among the
sources; the test file reads `root.clients` and `root.children["alpha"]`).
`clients` are the subscribers at exactly this path, `children` maps a level
to the child node; the wildcards `+` and `#` are stored as literal edges. -/
inductive Node where
  | mk (clients : List ClientRef) (children : List (String × Node)) : Node

/-- Subscribers stored at the node. -/
def Node.clients : Node → List ClientRef
  | .mk cl _ => cl

/-- Child edges of the node. -/
def Node.children : Node → List (String × Node)
  | .mk _ ch => ch

/-- A node without subscribers or children. -/
def Node.empty : Node := .mk [] []

/-- Map lookup `children[l]`. -/
def lookupChild (l : String) : List (String × Node) → Option Node
  | [] => none
  | (k, n) :: rest => if k = l then some n else lookupChild l rest

/-- Map update: replace `children[l]` by `f children[l]`, creating the child
from the empty node when the edge does not exist yet. -/
def updateChild (l : String) (f : Node → Node) :
    List (String × Node) → List (String × Node)
  | [] => [(l, f Node.empty)]
  | (k, n) :: rest =>
    if k = l then (k, f n) :: rest else (k, n) :: updateChild l f rest

/-- Add a client to a subscriber set (no duplicates). -/
def addClient (c : ClientRef) (cl : List ClientRef) : List ClientRef :=
  if c ∈ cl then cl else cl ++ [c]

/-- Modelled from the spec: "each level creates (or traverses) a child node
under the current node; subscribers of the full topic path are stored at the
terminal node". -/
def Node.insert (c : ClientRef) : List String → Node → Node
  | [], .mk cl ch => .mk (addClient c cl) ch
  | l :: ls, .mk cl ch => .mk cl (updateChild l (Node.insert c ls) ch)

/-- Subscribers stored at exactly the path `p` below the node. -/
def Node.subscribersAt : List String → Node → List ClientRef
  | [], n => n.clients
  | l :: ls, n =>
    match lookupChild l n.children with
    | none => []
    | some ch => Node.subscribersAt ls ch

/-- Modelled from the spec: the matching descent of section 4.C for the
remaining concrete levels.  With levels left: the subscribers of a `#` child
match, and the descent continues into the child of the current level and into
the `+` child.  With all levels consumed: the subscribers of the current node
match (and a `#` child is not consulted: `a/#` does not match `a`, as
`Test_SubscribersOf_2ash` pins). -/
def Node.collect : List String → Node → List ClientRef
  | [], n => n.clients
  | t :: ts, n =>
    (match lookupChild "#" n.children with
      | none => []
      | some h => h.clients)
    ++ (match lookupChild t n.children with
      | none => []
      | some ch => Node.collect ts ch)
    ++ (match lookupChild "+" n.children with
      | none => []
      | some ch => Node.collect ts ch)

/-- The topic tree (`TopicTree`, with its `root` as the tests read it). -/
structure TopicTree where
  root : Node

/-- The tree of `NewTopicTree()`. -/
def NewTopicTree : TopicTree := ⟨Node.empty⟩

/-- Errors of the topic tree. -/
inductive TreeError where
  | MalformedTopic
  | MatchError
  deriving DecidableEq, Repr

/-- Result of `AddSubscription`: the Go pair `(first, err)` and the tree
afterwards. -/
structure AddResult where
  first : Bool
  err : Option TreeError
  tree : TopicTree

/-- Modelled from the spec: `add_subscription(client, topic)`.  A topic that
fails the level grammar is rejected with `first = false` and the tree
unchanged (the tests require `false` with the error); otherwise the client is
stored at the terminal node and `first` tells whether that topic had no
subscriber before. -/
def TopicTree.AddSubscription (tt : TopicTree) (client : ClientRef)
    (topic : String) : AddResult :=
  if validSubscriptionTopic topic then
    { first := (tt.root.subscribersAt (splitTopic topic)).isEmpty
      err := none
      tree := ⟨tt.root.insert client (splitTopic topic)⟩ }
  else
    { first := false, err := some TreeError.MalformedTopic, tree := tt }

/-- Modelled from the spec: `subscribers_of(publish_topic)`, a set of clients
(deduplicated by identity); a malformed topic gives `MatchError`. -/
def TopicTree.SubscribersOf (tt : TopicTree) (topic : String) :
    List ClientRef × Option TreeError :=
  if validPublishTopic topic then
    ((tt.root.collect (splitTopic topic)).dedup, none)
  else ([], some TreeError.MatchError)

/-! ## Topic-id index -/

/-- Modelled from the spec: the topic-id index `topicNames`.  `NewAggGate`
builds it as `topicNames{sync.RWMutex{}, make(map[uint16]string), 0}`: a map
from id to topic string and the allocation counter. -/
structure topicNames where
  contents : List (Nat × String)
  next : Nat
  deriving DecidableEq, Repr

/-- The index of `NewAggGate`. -/
def topicNames.new : topicNames := ⟨[], 0⟩

/-- Modelled from the spec: `lookup_id(topic) → id | 0`. -/
def topicNames.getId (t : topicNames) (topic : String) : Nat :=
  match t.contents.find? (fun e => e.2 = topic) with
  | none => 0
  | some e => e.1

/-- Modelled from the spec: `contains(topic) → bool`. -/
def topicNames.containsTopic (t : topicNames) (topic : String) : Bool :=
  t.contents.any (fun e => e.2 = topic)

/-- Modelled from the spec: `lookup_topic(id) → string | ∅`. -/
def topicNames.getTopic (t : topicNames) (id : Nat) : Option String :=
  (t.contents.find? (fun e => e.1 = id)).map (fun e => e.2)

/-- Modelled from the spec: `get_or_assign(topic) → id`, "returns existing id
for topic, else allocates and binds"; `0` is never assigned, so with the
counter starting at `0` the fresh id is `next + 1`; "overflow past `0xFFFF` is
an unrecoverable condition" is the result `none`. -/
def topicNames.putTopic (t : topicNames) (topic : String) :
    Option (Nat × topicNames) :=
  if t.containsTopic topic then some (t.getId topic, t)
  else if 0xFFFF ≤ t.next then none
  else some (t.next + 1,
    { contents := t.contents ++ [(t.next + 1, topic)], next := t.next + 1 })

/-! ## Client sessions and the registry -/

/-- Modelled from the spec: a client session.  `registered` is the set
`registered_ids`, `pending` the queued publishes in arrival order. -/
structure Client where
  ClientId : String
  Conn : uConn
  Address : uAddr
  registered : List Nat
  pending : List PublishMessage
  deriving DecidableEq, Repr

/-- The session `NewClient(id, conn, addr)` creates. -/
def NewClient (id : String) (conn : uConn) (addr : uAddr) : Client :=
  { ClientId := id, Conn := conn, Address := addr, registered := [], pending := [] }

/-- Modelled from the spec: `mark_registered(topic_id)`. -/
def Client.Register (c : Client) (topicid : Nat) : Client :=
  { c with registered := if topicid ∈ c.registered then c.registered
                         else c.registered ++ [topicid] }

/-- Modelled from the spec: `is_registered(topic_id) → bool`. -/
def Client.Registered (c : Client) (topicid : Nat) : Bool :=
  decide (topicid ∈ c.registered)

/-- Modelled from the spec: `enqueue_pending(topic_id, message)`, "appends to
FIFO queue for that id"; the id is the message's topic id. -/
def Client.AddPendingMessage (c : Client) (pm : PublishMessage) : Client :=
  { c with pending := c.pending ++ [pm] }

/-- The queue of pending publishes of one topic id, oldest first. -/
def Client.pendingFor (c : Client) (topicid : Nat) : List PublishMessage :=
  c.pending.filter (fun pm => pm.topicId = topicid)

/-- Take the oldest message with the given topic id out of a pending list. -/
def dequeue (topicid : Nat) :
    List PublishMessage → Option PublishMessage × List PublishMessage
  | [] => (none, [])
  | pm :: rest =>
    if pm.topicId = topicid then (some pm, rest)
    else ((dequeue topicid rest).1, pm :: (dequeue topicid rest).2)

/-- Modelled from the spec: the pending queue of a topic id is FIFO.  The
source's `FetchPendingMessage(topicid)` yields one `*PublishMessage` (`nil`
when none is pending), so it is the dequeue of the oldest message of that id. -/
def Client.FetchPendingMessage (c : Client) (topicid : Nat) :
    Option PublishMessage × Client :=
  ((dequeue topicid c.pending).1, { c with pending := (dequeue topicid c.pending).2 })

/-- The datagram `client.Write(m)` sends on the client's return path. -/
def Client.Write (c : Client) (m : Message) : Event :=
  Event.write c.Conn c.Address m

/-- Dereference a client reference in the heap of client objects. -/
def deref (heap : List Client) (p : ClientRef) : Option Client :=
  if p = 0 then none else heap[p - 1]?

/-- Modelled from the spec: the client registry `Clients`, a map from client id
to the client (`make(map[string]*Client)` in `NewAggGate`). -/
abbrev Clients := List (String × ClientRef)

/-- Modelled from the spec: `get_by_addr(remote_addr) → client | ∅`; the
result is `nil` (`0`) when no session has that address. -/
def GetClient (heap : List Client) : Clients → uAddr → ClientRef
  | [], _ => 0
  | (_, p) :: rest, r =>
    match deref heap p with
    | some c => if c.Address = r then p else GetClient heap rest r
    | none => GetClient heap rest r

/-- Modelled from the spec: `add(client)`, "enforces uniqueness by `client_id`;
an existing `client_id` replaces the previous binding".  The `Clients` value
of `NewAggGate` holds only the lock and the map, so the replaced session is
dropped from the map and nothing else is touched. -/
def AddClient (id : String) (p : ClientRef) : Clients → Clients
  | [] => [(id, p)]
  | (k, q) :: rest => if k = id then (id, p) :: rest else (k, q) :: AddClient id p rest

/-- Modelled from the spec: `get_by_id(client_id) → client | ∅` (`nil` is `0`). -/
def GetClientById (id : String) : Clients → ClientRef
  | [] => 0
  | (k, q) :: rest => if k = id then q else GetClientById id rest

/-! ## Gateway state -/

/-- The mutable part of `AggGate`: `tIndex`, `tTree`, `clients`.  The broker
client, the stop channel, the port and the handler closure are external. -/
structure AggGate where
  tIndex : topicNames
  tTree : TopicTree
  clients : Clients

/-- State of the program: the gateway and the heap of `Client` objects its
pointers refer to. -/
structure State where
  ag : AggGate
  heap : List Client

/-- The state `NewAggGate` builds: empty index, empty tree, empty registry. -/
def NewAggGate : State :=
  { ag := { tIndex := topicNames.new, tTree := NewTopicTree, clients := [] }, heap := [] }

/-- Store an updated client object at a (non-nil) reference. -/
def State.setClient (s : State) (p : ClientRef) (c : Client) : State :=
  { s with heap := s.heap.set (p - 1) c }

/-- Outcome of running a handler: the state afterwards, the events in the
order they happened, and whether the handler ended in a panic. -/
structure Run where
  st : State
  out : List Event
  fault : Bool

/-- Run `f` after a run that did not panic, concatenating the events. -/
def Run.andThen (r : Run) (f : State → Run) : Run :=
  if r.fault then r
  else { st := (f r.st).st, out := r.out ++ (f r.st).out, fault := (f r.st).fault }

/-! ## Handlers of `agggateway.go` -/

/-- The method `publish(msg, client)` (lines 112–141).  The topic id is
`tIndex.getId(top)`; a registered client is sent the PUBLISH, an unregistered
one gets the PUBLISH queued and a REGISTER.  A `nil` client panics on
`client.ClientId`.  A write error only selects the log line. -/
def publish (s : State) (msg : BrokerMessage) (client : ClientRef) : Run :=
  match deref s.heap client with
  | none => { st := s, out := [], fault := true }
  | some c =>
    let topicid := s.ag.tIndex.getId msg.Topic
    let pm : PublishMessage :=
      { dup := msg.DupFlag, retain := msg.RetainedFlag, qos := msg.QoS,
        topicIdType := 0, topicId := topicid, msgId := 0, data := msg.Payload }
    if c.Registered topicid then
      { st := s, out := [c.Write (Message.publish pm)], fault := false }
    else
      { st := s.setClient client (c.AddPendingMessage pm),
        out := [c.Write (Message.register topicid 0 msg.Topic)], fault := false }

/-- The method `distribute(msg)` (lines 95–110): every subscriber of the
message's topic is published to.  The goroutines `go ag.publish(msg, client)`
are run one after the other, in the order of the subscriber list. -/
def distribute (s : State) (msg : BrokerMessage) : Run :=
  match s.ag.tTree.SubscribersOf msg.Topic with
  | (_, some _) => { st := s, out := [], fault := false }
  | (clients, none) =>
    clients.foldl (fun r client => r.andThen (fun st => publish st msg client))
      { st := s, out := [], fault := false }

/-- The handler `handle_REGACK(m, r)` (lines 297–314): one pending message of
the acknowledged topic id is fetched and, when there is one, written to the
client.  `FetchPendingMessage` on a `nil` client panics. -/
def handle_REGACK (s : State) (ra : RegackMessage) (r : uAddr) : Run :=
  let topicid := ra.TopicId
  let client := GetClient s.heap s.ag.clients r
  match deref s.heap client with
  | none => { st := s, out := [], fault := true }
  | some c =>
    match c.FetchPendingMessage topicid with
    | (none, c1) => { st := s.setClient client c1, out := [], fault := false }
    | (some pm, c1) =>
      { st := s.setClient client c1, out := [c1.Write (Message.publish pm)], fault := false }

/-- The handler `handle_REGACK(m, r)` (lines 297–314) with the method
`FetchPendingMessage`, whose file is not among the sources, taken as the
parameter `fetch`: applied to the client and the topic id it yields the
fetched `*PublishMessage` (`none` for `nil`) and the client as the call leaves
it.  `handle_REGACK` is the instance at `Client.FetchPendingMessage`. -/
def handle_REGACK_with (fetch : Client → Nat → Option PublishMessage × Client)
    (s : State) (ra : RegackMessage) (r : uAddr) : Run :=
  let topicid := ra.TopicId
  let client := GetClient s.heap s.ag.clients r
  match deref s.heap client with
  | none => { st := s, out := [], fault := true }
  | some c =>
    match fetch c topicid with
    | (none, c1) => { st := s.setClient client c1, out := [], fault := false }
    | (some pm, c1) =>
      { st := s.setClient client c1, out := [c1.Write (Message.publish pm)], fault := false }

/-- Lines 353–365 of `handle_SUBSCRIBE`: the topic id of the SUBACK and the
index afterwards.  For topic id type `0` and a topic without wildcard it is
`getId(topic)`, or `putTopic(topic)` when that is `0`; otherwise it stays `0`.
The result is `none` when `putTopic` fails (id space exhausted). -/
def subscribeTopicId (ix : topicNames) (sm : SubscribeMessage) :
    Option (Nat × topicNames) :=
  if sm.TopicIdType = 0 then
    if !ContainsWildcard sm.TopicName then
      if ix.getId sm.TopicName = 0 then ix.putTopic sm.TopicName
      else some (ix.getId sm.TopicName, ix)
    else some (0, ix)
  else some (0, ix)

/-- The handler `handle_SUBSCRIBE(m, c, r)` (lines 348–389).  After the topic
id is settled, the sender's client (possibly `nil`) is added to the tree.  On
an error nothing more happens (the error is logged).  Otherwise, for the first
subscriber, `StartSubscription(handler, topic, QOS_TWO)` is called; then
`client.Register(topicid)` (a panic for a `nil` client) and a SUBACK
`NewSubackMessage(0, sm.QoS(), topicid, sm.MsgId())` is written to `c`, `r`.
The broker's receipt (`<-receipt`) is taken to arrive; an error of
`StartSubscription` or of the write only selects the log line. -/
def handle_SUBSCRIBE (s : State) (sm : SubscribeMessage) (c : uConn) (r : uAddr) : Run :=
  let topic := sm.TopicName
  match subscribeTopicId s.ag.tIndex sm with
  | none => { st := s, out := [], fault := true }
  | some (topicid, ix) =>
    let client := GetClient s.heap s.ag.clients r
    let res := s.ag.tTree.AddSubscription client topic
    let s1 : State := { s with ag := { s.ag with tIndex := ix, tTree := res.tree } }
    match res.err with
    | some _ => { st := s1, out := [], fault := false }
    | none =>
      let sub : List Event :=
        if res.first then [Event.startSubscription topic 2] else []
      match deref s1.heap client with
      | none => { st := s1, out := sub, fault := true }
      | some cl =>
        { st := s1.setClient client (cl.Register topicid),
          out := sub ++ [Event.write c r (Message.suback 0 sm.QoS topicid sm.MsgId)],
          fault := false }

/-- The handler `handle_DISCONNECT(m, r)` (lines 418–422): the duration is
read and logged; nothing else happens. -/
def handle_DISCONNECT (s : State) (_dm : DisconnectMessage) (_r : uAddr) : Run :=
  { st := s, out := [], fault := false }

/-- Lines 275–280 of `handle_REGISTER`: the topic id of the REGACK and the index
afterwards, `putTopic(topic)` when the index does not contain the topic and
`getId(topic)` when it does.  The result is `none` when `putTopic` fails (id
space exhausted). -/
def registerTopicId (ix : topicNames) (topic : String) : Option (Nat × topicNames) :=
  if !ix.containsTopic topic then ix.putTopic topic
  else some (ix.getId topic, ix)

/-- The handler `handle_REGISTER(m, c, r)` (lines 268–295).  After the topic id
is settled, the sender's client is looked up by address, registered for the id
(`client.Register(topicid)`, a panic for a `nil` client) and sent
`NewRegackMessage(topicid, rm.MsgId(), 0)` with `client.Write`.  A write error
only selects the log line. -/
def handle_REGISTER (s : State) (rm : RegisterMessage) (_c : uConn) (r : uAddr) : Run :=
  let topic := rm.TopicName
  match registerTopicId s.ag.tIndex topic with
  | none => { st := s, out := [], fault := true }
  | some (topicid, ix) =>
    let s1 : State := { s with ag := { s.ag with tIndex := ix } }
    let client := GetClient s1.heap s1.ag.clients r
    match deref s1.heap client with
    | none => { st := s1, out := [], fault := true }
    | some cl =>
      { st := s1.setClient client (cl.Register topicid),
        out := [(cl.Register topicid).Write (Message.regack topicid rm.MsgId 0)],
        fault := false }

/-- The handler `handle_CONNECT(m, c, r)` (lines 220–246).  A CONNECT with an
empty client id is rejected without any effect.  Otherwise `NewClient`
allocates a session bound to `c` and `r` (the next free heap cell), the
registry binds the client id to it (`ag.clients.AddClient(client)`), and
`NewConnackMessage(0)` is written to the new client.  The will flag is only
logged; a write error only selects the log line. -/
def handle_CONNECT (s : State) (cm : ConnectMessage) (c : uConn) (r : uAddr) : Run :=
  let clientid := cm.ClientId
  if clientid = "" then { st := s, out := [], fault := false }
  else
    let client : ClientRef := s.heap.length + 1
    let cl := NewClient cm.ClientId c r
    { st := { ag := { s.ag with clients := AddClient cl.ClientId client s.ag.clients },
              heap := s.heap ++ [cl] },
      out := [cl.Write (Message.connack 0)],
      fault := false }

/-! ## Observations on event lists -/

/-- The upstream subscribe calls among the events, as `(topic, qos)`. -/
def upstreamSubscribes : List Event → List (String × Nat)
  | [] => []
  | Event.startSubscription topic qos :: es => (topic, qos) :: upstreamSubscribes es
  | _ :: es => upstreamSubscribes es

/-- The topics of the upstream unsubscribe calls among the events. -/
def upstreamUnsubscribes : List Event → List String
  | [] => []
  | Event.unsubscribe topic :: es => topic :: upstreamUnsubscribes es
  | _ :: es => upstreamUnsubscribes es

/-- The datagrams sent to devices among the events. -/
def deviceWrites : List Event → List (uConn × uAddr × Message)
  | [] => []
  | Event.write conn addr m :: es => (conn, addr, m) :: deviceWrites es
  | _ :: es => deviceWrites es

/-! ## Scenario states -/

/-- Scenario state: two connected clients `c1` (connection 1, address 10) and
`c2` (connection 2, address 20), as two CONNECTs leave the fresh gateway. -/
def twoClients : State :=
  { ag := { tIndex := topicNames.new, tTree := NewTopicTree,
            clients := [("c1", 1), ("c2", 2)] },
    heap := [NewClient "c1" 1 10, NewClient "c2" 2 20] }

/-! ## Subscriptions held in a tree, and the matching relation of the claims -/

/-- Run a sequence of `AddSubscription(client, topic)` calls on a tree; a
rejected call leaves the tree as it is. -/
def addAll (tt : TopicTree) (calls : List (ClientRef × String)) : TopicTree :=
  calls.foldl (fun t p => (t.AddSubscription p.1 p.2).tree) tt

/-- The tree built by a sequence of `AddSubscription` calls on a new tree. -/
def buildTree (calls : List (ClientRef × String)) : TopicTree :=
  addAll NewTopicTree calls

/-- Client `c` holds the subscription `S`: one of the calls of the sequence was
`AddSubscription(c, S)` and it returned no error. -/
def holdsSubscription (calls : List (ClientRef × String)) (c : ClientRef)
    (S : String) : Prop :=
  ∃ before after, calls = before ++ (c, S) :: after ∧
    ((buildTree before).AddSubscription c S).err = none

/-- The level list ends in the level `#`. -/
def endsInHash (s : List String) : Bool :=
  decide (s.getLast? = some "#")

/-- The matching relation as the specification words it, on the levels `s` of
a subscription and `t` of a concrete topic: every level of `s` before a final
`#` equals the corresponding level of `t` or is `+`, and either `s` has no `#`
and as many levels as `t`, or `s` ends in `#` and `t` has at least as many
levels as `s`. -/
def topicMatches (s t : List String) : Bool :=
  (((if endsInHash s then s.dropLast else s).zip t).all
      (fun p => decide (p.1 = p.2) || decide (p.1 = "+"))) &&
    ((!(s.contains "#") && decide (s.length = t.length)) ||
      (endsInHash s && decide (s.length ≤ t.length)))

/-! ## The defects of a topic string, as the specification names them -/

/-- The topic string ends in `/`. -/
def hasTrailingSlash (topic : String) : Bool :=
  decide (topic.data.getLast? = some '/')

/-- Two consecutive `/` occur in the characters. -/
def hasDoubleSlash : List Char → Bool
  | [] => false
  | c :: cs => (decide (c = '/') && decide (cs.head? = some '/')) || hasDoubleSlash cs

/-- Some level contains a `#` without being the whole final level. -/
def hashMisplaced : List String → Bool
  | [] => false
  | [l] => l.data.contains '#' && decide (l ≠ "#")
  | l :: l2 :: ls => l.data.contains '#' || hashMisplaced (l2 :: ls)

/-- Some level contains a `+` without being the whole level. -/
def plusMisplaced (levels : List String) : Bool :=
  levels.any (fun l => l.data.contains '+' && decide (l ≠ "+"))

/-- A topic string with one of the four defects: a trailing `/`, a `//`, a `#`
that is not the whole final level, a `+` that is not a whole level. -/
def malformedTopic (topic : String) : Bool :=
  hasTrailingSlash topic || hasDoubleSlash topic.data ||
    hashMisplaced (splitTopic topic) || plusMisplaced (splitTopic topic)

/-- A well-formed topic string: not empty and without any of the defects. -/
def wellFormedTopic (topic : String) : Bool :=
  decide (topic ≠ "") && !malformedTopic topic

/-! ## Invariant of the topic-id index -/

/-- Well-formed index: every bound id is non-zero and not above the allocation
counter.  It holds for the new index and `putTopic` keeps it. -/
def topicNames.WF (t : topicNames) : Prop :=
  ∀ e ∈ t.contents, 0 < e.1 ∧ e.1 ≤ t.next

/-- Scenario state: from `twoClients`, client `c2` has subscribed to `a` (which
indexes `a` under id 1) and client `c1` to `#`. -/
def afterSubscribes : State :=
  (handle_SUBSCRIBE (handle_SUBSCRIBE twoClients ⟨0, "a", 0, 1⟩ 2 20).st ⟨0, "#", 0, 2⟩ 1 10).st

/-- Scenario state: from `twoClients`, both clients have subscribed to `foo`. -/
def bothOnFoo : State :=
  (handle_SUBSCRIBE (handle_SUBSCRIBE twoClients ⟨0, "foo", 0, 1⟩ 1 10).st ⟨0, "foo", 0, 2⟩ 2 20).st

/-- A broker message on topic `a`. -/
def msgA (payload : List Nat) : BrokerMessage :=
  { Topic := "a", Payload := payload, QoS := 0, RetainedFlag := false, DupFlag := false }

/-- The PUBLISH that `publish` builds for `msgA payload` when `a` has id `id`. -/
def pubA (id : Nat) (payload : List Nat) : PublishMessage :=
  { dup := false, retain := false, qos := 0, topicIdType := 0, topicId := id, msgId := 0,
    data := payload }

/-! ## Lemmas on the topic tree -/

theorem lookupChild_updateChild_same (l : String) (f : Node → Node)
    (ch : List (String × Node)) :
    lookupChild l (updateChild l f ch) = some (f ((lookupChild l ch).getD Node.empty)) := by
  induction ch with
  | nil => simp [updateChild, lookupChild]
  | cons e rest ih =>
    obtain ⟨k, n⟩ := e
    by_cases h : k = l
    · simp [updateChild, lookupChild, h]
    · simp [updateChild, lookupChild, h, ih]

theorem lookupChild_updateChild_ne (k l : String) (f : Node → Node)
    (ch : List (String × Node)) (h : k ≠ l) :
    lookupChild k (updateChild l f ch) = lookupChild k ch := by
  induction ch with
  | nil => simp [updateChild, lookupChild, Ne.symm h]
  | cons e rest ih =>
    obtain ⟨k2, n⟩ := e
    by_cases h2 : k2 = l
    · subst h2
      simp [updateChild, lookupChild, Ne.symm h]
    · by_cases h3 : k2 = k
      · subst h3
        simp [updateChild, lookupChild, h2]
      · simp [updateChild, lookupChild, h2, h3, ih]

theorem subscribersAt_empty (p : List String) : Node.empty.subscribersAt p = [] := by
  cases p with
  | nil => rfl
  | cons l ls => simp [Node.subscribersAt, Node.empty, Node.children, lookupChild]

theorem subscribersAt_insert_same (c : ClientRef) (p : List String) (n : Node) :
    (n.insert c p).subscribersAt p = addClient c (n.subscribersAt p) := by
  induction p generalizing n with
  | nil =>
    obtain ⟨cl, ch⟩ := n
    simp [Node.insert, Node.subscribersAt, Node.clients]
  | cons l ls ih =>
    obtain ⟨cl, ch⟩ := n
    simp only [Node.insert, Node.subscribersAt, Node.children, lookupChild_updateChild_same]
    rw [ih]
    cases hl : lookupChild l ch with
    | none => simp [subscribersAt_empty]
    | some ch1 => simp

theorem subscribersAt_insert_ne (c : ClientRef) (p q : List String) (n : Node)
    (h : q ≠ p) : (n.insert c p).subscribersAt q = n.subscribersAt q := by
  induction p generalizing n q with
  | nil =>
    obtain ⟨cl, ch⟩ := n
    cases q with
    | nil => exact absurd rfl h
    | cons k ks => simp [Node.insert, Node.subscribersAt, Node.children]
  | cons l ls ih =>
    obtain ⟨cl, ch⟩ := n
    cases q with
    | nil => simp [Node.insert, Node.subscribersAt, Node.clients]
    | cons k ks =>
      by_cases hk : k = l
      · subst hk
        have hks : ks ≠ ls := fun e => h (by rw [e])
        simp only [Node.insert, Node.subscribersAt, Node.children,
          lookupChild_updateChild_same]
        rw [ih _ _ hks]
        cases hl : lookupChild k ch with
        | none => simp [subscribersAt_empty]
        | some ch1 => simp
      · simp only [Node.insert, Node.subscribersAt, Node.children]
        rw [lookupChild_updateChild_ne k l _ ch hk]

theorem mem_addClient (x c : ClientRef) (cl : List ClientRef) :
    x ∈ addClient c cl ↔ x = c ∨ x ∈ cl := by
  unfold addClient
  split
  · constructor
    · intro h; exact Or.inr h
    · intro h
      rcases h with h | h
      · subst h; assumption
      · exact h
  · simp [or_comm]

theorem addClient_ne_nil (c : ClientRef) (cl : List ClientRef) : addClient c cl ≠ [] := by
  intro h
  have : c ∈ addClient c cl := (mem_addClient c c cl).2 (Or.inl rfl)
  rw [h] at this
  exact absurd this (List.not_mem_nil c)

/-! ## Lemmas on `handle_SUBSCRIBE` -/

theorem upstreamSubscribes_append (xs ys : List Event) :
    upstreamSubscribes (xs ++ ys) = upstreamSubscribes xs ++ upstreamSubscribes ys := by
  induction xs with
  | nil => rfl
  | cons e es ih => cases e <;> simp [upstreamSubscribes, ih]

/-- The upstream subscribes of one SUBSCRIBE: one, for the topic at QoS 2, when
`AddSubscription` is reached and returns `first` without error; none otherwise. -/
theorem handle_SUBSCRIBE_upstream (s : State) (sm : SubscribeMessage) (c : uConn)
    (r : uAddr) :
    upstreamSubscribes (handle_SUBSCRIBE s sm c r).out =
      if (subscribeTopicId s.ag.tIndex sm).isSome = true ∧
          (s.ag.tTree.AddSubscription (GetClient s.heap s.ag.clients r) sm.TopicName).first = true ∧
          (s.ag.tTree.AddSubscription (GetClient s.heap s.ag.clients r) sm.TopicName).err = none
      then [(sm.TopicName, 2)] else [] := by
  unfold handle_SUBSCRIBE
  cases hix : subscribeTopicId s.ag.tIndex sm with
  | none => simp [upstreamSubscribes]
  | some p =>
    obtain ⟨topicid, ix⟩ := p
    simp only [Option.isSome_some, true_and]
    cases herr : (s.ag.tTree.AddSubscription (GetClient s.heap s.ag.clients r) sm.TopicName).err with
    | some e => simp [upstreamSubscribes]
    | none =>
      cases hfirst : (s.ag.tTree.AddSubscription (GetClient s.heap s.ag.clients r) sm.TopicName).first <;>
      cases hd : deref s.heap (GetClient s.heap s.ag.clients r) <;>
      simp [upstreamSubscribes, upstreamSubscribes_append, State.setClient]

/-- The tree a SUBSCRIBE leaves when it reaches `AddSubscription`. -/
theorem handle_SUBSCRIBE_tree (s : State) (sm : SubscribeMessage) (c : uConn)
    (r : uAddr) (h : (subscribeTopicId s.ag.tIndex sm).isSome = true) :
    (handle_SUBSCRIBE s sm c r).st.ag.tTree =
      (s.ag.tTree.AddSubscription (GetClient s.heap s.ag.clients r) sm.TopicName).tree := by
  unfold handle_SUBSCRIBE
  cases hix : subscribeTopicId s.ag.tIndex sm with
  | none => rw [hix] at h; simp at h
  | some p =>
    obtain ⟨topicid, ix⟩ := p
    cases herr : (s.ag.tTree.AddSubscription (GetClient s.heap s.ag.clients r) sm.TopicName).err with
    | some e => simp [herr]
    | none =>
      cases hd : deref s.heap (GetClient s.heap s.ag.clients r) <;>
      simp [State.setClient, herr, hd]

/-- A SUBSCRIBE that ends without a panic did reach `AddSubscription`. -/
theorem handle_SUBSCRIBE_reached (s : State) (sm : SubscribeMessage) (c : uConn)
    (r : uAddr) (h : (handle_SUBSCRIBE s sm c r).fault = false) :
    (subscribeTopicId s.ag.tIndex sm).isSome = true := by
  unfold handle_SUBSCRIBE at h
  cases hix : subscribeTopicId s.ag.tIndex sm with
  | none => rw [hix] at h; simp at h
  | some p => rfl

theorem AddSubscription_err_none_iff (tt : TopicTree) (client : ClientRef) (topic : String) :
    (tt.AddSubscription client topic).err = none ↔ validSubscriptionTopic topic = true := by
  unfold TopicTree.AddSubscription
  by_cases h : validSubscriptionTopic topic = true <;> simp [h]

/-- After an accepted `AddSubscription`, the topic has a subscriber: adding to
it again does not return `first`. -/
theorem AddSubscription_again_not_first (tt : TopicTree) (c1 c2 : ClientRef)
    (topic : String) (h : (tt.AddSubscription c1 topic).err = none) :
    ((tt.AddSubscription c1 topic).tree.AddSubscription c2 topic).first = false := by
  have hv := (AddSubscription_err_none_iff tt c1 topic).1 h
  simp only [TopicTree.AddSubscription, hv, if_true]
  rw [subscribersAt_insert_same]
  have := addClient_ne_nil c1 (tt.root.subscribersAt (splitTopic topic))
  cases hcl : addClient c1 (tt.root.subscribersAt (splitTopic topic)) with
  | nil => exact absurd hcl this
  | cons a l => rfl

/-- C1: the upstream `StartSubscription(topic, QoS 2)` is invoked exactly once
by `handle_SUBSCRIBE` when `AddSubscription(client, topic)` is reached and
returns `first = true` without error, and not at all otherwise; consequently,
when two SUBSCRIBEs for the same topic string (accepted, and not yet
subscribed by anyone) are handled one after the other, the broker receives
exactly one subscribe for it. -/
theorem C1_upstream_subscribe_once (s : State) (sm1 sm2 : SubscribeMessage)
    (c1 c2 : uConn) (r1 r2 : uAddr) :
    (upstreamSubscribes (handle_SUBSCRIBE s sm1 c1 r1).out =
      if (subscribeTopicId s.ag.tIndex sm1).isSome = true ∧
          (s.ag.tTree.AddSubscription (GetClient s.heap s.ag.clients r1) sm1.TopicName).first = true ∧
          (s.ag.tTree.AddSubscription (GetClient s.heap s.ag.clients r1) sm1.TopicName).err = none
      then [(sm1.TopicName, 2)] else []) ∧
    (sm2.TopicName = sm1.TopicName →
      (handle_SUBSCRIBE s sm1 c1 r1).fault = false →
      (s.ag.tTree.AddSubscription (GetClient s.heap s.ag.clients r1) sm1.TopicName).err = none →
      s.ag.tTree.root.subscribersAt (splitTopic sm1.TopicName) = [] →
      upstreamSubscribes ((handle_SUBSCRIBE s sm1 c1 r1).out ++
        (handle_SUBSCRIBE (handle_SUBSCRIBE s sm1 c1 r1).st sm2 c2 r2).out)
        = [(sm1.TopicName, 2)]) := by
  refine ⟨handle_SUBSCRIBE_upstream s sm1 c1 r1, ?_⟩
  intro htop hfault herr hnone
  have hreach := handle_SUBSCRIBE_reached s sm1 c1 r1 hfault
  have hv := (AddSubscription_err_none_iff _ _ _).1 herr
  have hfirst : (s.ag.tTree.AddSubscription (GetClient s.heap s.ag.clients r1)
      sm1.TopicName).first = true := by
    simp [TopicTree.AddSubscription, hv, hnone]
  rw [upstreamSubscribes_append, handle_SUBSCRIBE_upstream s sm1 c1 r1,
    handle_SUBSCRIBE_upstream _ sm2 c2 r2, handle_SUBSCRIBE_tree s sm1 c1 r1 hreach, htop]
  have h2 := AddSubscription_again_not_first s.ag.tTree (GetClient s.heap s.ag.clients r1)
    (GetClient (handle_SUBSCRIBE s sm1 c1 r1).st.heap
      (handle_SUBSCRIBE s sm1 c1 r1).st.ag.clients r2) sm1.TopicName herr
  simp [hreach, hfirst, herr, h2]

theorem C1_upstream_subscribe_once_witness :
    ((handle_SUBSCRIBE twoClients ⟨0, "foo", 1, 7⟩ 1 10).fault = false ∧
      (twoClients.ag.tTree.AddSubscription (GetClient twoClients.heap twoClients.ag.clients 10)
        "foo").err = none ∧
      twoClients.ag.tTree.root.subscribersAt (splitTopic "foo") = []) ∧
    upstreamSubscribes ((handle_SUBSCRIBE twoClients ⟨0, "foo", 1, 7⟩ 1 10).out ++
      (handle_SUBSCRIBE (handle_SUBSCRIBE twoClients ⟨0, "foo", 1, 7⟩ 1 10).st
        ⟨0, "foo", 1, 8⟩ 2 20).out) = [("foo", 2)] :=
  ⟨by decide,
   (C1_upstream_subscribe_once twoClients ⟨0, "foo", 1, 7⟩ ⟨0, "foo", 1, 8⟩ 1 2 10 20).2
     rfl (by decide) (by decide) (by decide)⟩

/-! ## The matching relation, level by level -/

theorem topicMatches_nil_left (t : List String) : topicMatches [] t = true ↔ t = [] := by
  cases t <;> simp [topicMatches, endsInHash]

theorem topicMatches_nil_right (s : List String) : topicMatches s [] = true ↔ s = [] := by
  cases s <;> simp [topicMatches, endsInHash]

theorem endsInHash_cons_cons (s s2 : String) (rest : List String) :
    endsInHash (s :: s2 :: rest) = endsInHash (s2 :: rest) := by
  simp [endsInHash, List.getLast?_cons_cons]

theorem topicMatches_cons_cons (s s2 t : String) (rest T : List String) (ht : t ≠ "#") :
    topicMatches (s :: s2 :: rest) (t :: T) =
      ((decide (s = t) || decide (s = "+")) && topicMatches (s2 :: rest) T) := by
  unfold topicMatches
  rw [endsInHash_cons_cons]
  by_cases hs : s = "#"
  · subst hs
    have h1 : ("#" : String) ≠ t := fun e => ht e.symm
    cases endsInHash (s2 :: rest) <;> simp [h1]
  · have h2 : ¬ ("#" : String) = s := fun e => hs e.symm
    cases endsInHash (s2 :: rest) <;> simp [hs, h2, List.dropLast, Bool.and_assoc]

theorem topicMatches_single (s t : String) (T : List String) (hs : s ≠ "#") :
    topicMatches [s] (t :: T) = ((decide (s = t) || decide (s = "+")) && decide (T = [])) := by
  have h2 : ¬ ("#" : String) = s := fun e => hs e.symm
  cases T <;> simp [topicMatches, endsInHash, hs, h2]

theorem topicMatches_hash (t : String) (T : List String) :
    topicMatches ["#"] (t :: T) = true := by
  simp [topicMatches, endsInHash]

theorem topicMatches_cons (S : List String) (t : String) (T : List String) (ht : t ≠ "#") :
    topicMatches S (t :: T) = true ↔
      S = ["#"] ∨ ∃ s S1, S = s :: S1 ∧ (s = t ∨ s = "+") ∧ topicMatches S1 T = true := by
  cases S with
  | nil => simp [topicMatches, endsInHash]
  | cons s S1 =>
    cases S1 with
    | nil =>
      by_cases hs : s = "#"
      · subst hs
        simp [topicMatches_hash]
      · rw [topicMatches_single s t T hs]
        constructor
        · intro h
          simp at h
          exact Or.inr ⟨s, [], rfl, h.1, (topicMatches_nil_left T).2 h.2⟩
        · intro h
          rcases h with h | ⟨s1, S1, he, hm, hT⟩
          · simp at h
            exact absurd h hs
          · simp at he
            obtain ⟨he1, he2⟩ := he
            subst he1
            subst he2
            have := (topicMatches_nil_left T).1 hT
            simp [hm, this]
    | cons s2 rest =>
      rw [topicMatches_cons_cons s s2 t rest T ht]
      constructor
      · intro h
        simp at h
        exact Or.inr ⟨s, s2 :: rest, rfl, h.1, h.2⟩
      · intro h
        rcases h with h | ⟨s1, S1, he, hm, hT⟩
        · simp at h
        · simp at he
          obtain ⟨he1, he2⟩ := he
          subst he1
          subst he2
          simp [hm, hT]

/-! ## The matching descent computes the matching relation -/

theorem mem_collect_iff (T : List String) (hT : ∀ t ∈ T, t ≠ "#") (n : Node) (c : ClientRef) :
    c ∈ n.collect T ↔ ∃ S, c ∈ n.subscribersAt S ∧ topicMatches S T = true := by
  induction T generalizing n with
  | nil =>
    constructor
    · intro h
      exact ⟨[], h, by decide⟩
    · intro h
      obtain ⟨S, hS, hm⟩ := h
      have := (topicMatches_nil_right S).1 hm
      subst this
      exact hS
  | cons t T ih =>
    have ht : t ≠ "#" := hT t (List.mem_cons_self t T)
    have hT1 : ∀ x ∈ T, x ≠ "#" := fun x hx => hT x (List.mem_cons_of_mem t hx)
    simp only [Node.collect, List.mem_append]
    constructor
    · intro h
      rcases h with (h | h) | h
      · cases hl : lookupChild "#" n.children with
        | none => rw [hl] at h; simp at h
        | some hn =>
          rw [hl] at h
          refine ⟨["#"], ?_, topicMatches_hash t T⟩
          simpa [Node.subscribersAt, hl] using h
      · cases hl : lookupChild t n.children with
        | none => rw [hl] at h; simp at h
        | some ch =>
          rw [hl] at h
          obtain ⟨S1, hS1, hm⟩ := (ih hT1 ch).1 h
          refine ⟨t :: S1, ?_, (topicMatches_cons _ t T ht).2 (Or.inr ⟨t, S1, rfl, Or.inl rfl, hm⟩)⟩
          simpa [Node.subscribersAt, hl] using hS1
      · cases hl : lookupChild "+" n.children with
        | none => rw [hl] at h; simp at h
        | some ch =>
          rw [hl] at h
          obtain ⟨S1, hS1, hm⟩ := (ih hT1 ch).1 h
          refine ⟨"+" :: S1, ?_, (topicMatches_cons _ t T ht).2 (Or.inr ⟨"+", S1, rfl, Or.inr rfl, hm⟩)⟩
          simpa [Node.subscribersAt, hl] using hS1
    · intro h
      obtain ⟨S, hS, hm⟩ := h
      rcases (topicMatches_cons S t T ht).1 hm with h1 | ⟨s, S1, he, hst, hm1⟩
      · subst h1
        left; left
        cases hl : lookupChild "#" n.children with
        | none => simp [Node.subscribersAt, hl] at hS
        | some hn => simpa [Node.subscribersAt, hl] using hS
      · subst he
        rcases hst with hst | hst
        · subst hst
          left; right
          cases hl : lookupChild s n.children with
          | none => simp [Node.subscribersAt, hl] at hS
          | some ch =>
            simp only [Node.subscribersAt, hl] at hS
            exact (ih hT1 ch).2 ⟨S1, hS, hm1⟩
        · subst hst
          right
          cases hl : lookupChild "+" n.children with
          | none => simp [Node.subscribersAt, hl] at hS
          | some ch =>
            simp only [Node.subscribersAt, hl] at hS
            exact (ih hT1 ch).2 ⟨S1, hS, hm1⟩

/-! ## The subscriptions stored by a sequence of calls -/

theorem mem_subscribersAt_addAll (calls : List (ClientRef × String)) (tt : TopicTree)
    (S : List String) (c : ClientRef) :
    c ∈ (addAll tt calls).root.subscribersAt S ↔
      c ∈ tt.root.subscribersAt S ∨
        ∃ topic, (c, topic) ∈ calls ∧ validSubscriptionTopic topic = true ∧
          splitTopic topic = S := by
  induction calls generalizing tt with
  | nil => simp [addAll]
  | cons p rest ih =>
    obtain ⟨c1, topic1⟩ := p
    have hstep : addAll tt ((c1, topic1) :: rest) =
        addAll (tt.AddSubscription c1 topic1).tree rest := rfl
    rw [hstep, ih]
    by_cases hv : validSubscriptionTopic topic1 = true
    · have htree : (tt.AddSubscription c1 topic1).tree =
          ⟨tt.root.insert c1 (splitTopic topic1)⟩ := by
        simp [TopicTree.AddSubscription, hv]
      rw [htree]
      by_cases hS : S = splitTopic topic1
      · subst hS
        simp only [subscribersAt_insert_same, mem_addClient]
        constructor
        · intro h
          rcases h with (h | h) | ⟨topic, hmem, hvt, hsp⟩
          · subst h
            exact Or.inr ⟨topic1, List.mem_cons_self _ _, hv, rfl⟩
          · exact Or.inl h
          · exact Or.inr ⟨topic, List.mem_cons_of_mem _ hmem, hvt, hsp⟩
        · intro h
          rcases h with h | ⟨topic, hmem, hvt, hsp⟩
          · exact Or.inl (Or.inr h)
          · rcases List.mem_cons.1 hmem with he | hmem
            · simp only [Prod.mk.injEq] at he
              exact Or.inl (Or.inl he.1)
            · exact Or.inr ⟨topic, hmem, hvt, hsp⟩
      · simp only [subscribersAt_insert_ne c1 (splitTopic topic1) S tt.root hS]
        constructor
        · intro h
          rcases h with h | ⟨topic, hmem, hvt, hsp⟩
          · exact Or.inl h
          · exact Or.inr ⟨topic, List.mem_cons_of_mem _ hmem, hvt, hsp⟩
        · intro h
          rcases h with h | ⟨topic, hmem, hvt, hsp⟩
          · exact Or.inl h
          · rcases List.mem_cons.1 hmem with he | hmem
            · simp only [Prod.mk.injEq] at he
              obtain ⟨_, he2⟩ := he
              subst he2
              exact absurd hsp.symm hS
            · exact Or.inr ⟨topic, hmem, hvt, hsp⟩
    · have htree : (tt.AddSubscription c1 topic1).tree = tt := by
        simp [TopicTree.AddSubscription, hv]
      rw [htree]
      constructor
      · intro h
        rcases h with h | ⟨topic, hmem, hvt, hsp⟩
        · exact Or.inl h
        · exact Or.inr ⟨topic, List.mem_cons_of_mem _ hmem, hvt, hsp⟩
      · intro h
        rcases h with h | ⟨topic, hmem, hvt, hsp⟩
        · exact Or.inl h
        · rcases List.mem_cons.1 hmem with he | hmem
          · simp only [Prod.mk.injEq] at he
            obtain ⟨_, he2⟩ := he
            subst he2
            exact absurd hvt hv
          · exact Or.inr ⟨topic, hmem, hvt, hsp⟩

theorem holdsSubscription_iff (calls : List (ClientRef × String)) (c : ClientRef)
    (S : String) :
    holdsSubscription calls c S ↔ (c, S) ∈ calls ∧ validSubscriptionTopic S = true := by
  unfold holdsSubscription
  constructor
  · intro h
    obtain ⟨before, after, he, herr⟩ := h
    refine ⟨?_, (AddSubscription_err_none_iff _ _ _).1 herr⟩
    rw [he]
    simp
  · intro h
    obtain ⟨hmem, hv⟩ := h
    obtain ⟨before, after, he⟩ := List.append_of_mem hmem
    exact ⟨before, after, he, (AddSubscription_err_none_iff _ _ _).2 hv⟩

theorem mem_subscribersAt_buildTree (calls : List (ClientRef × String))
    (S : List String) (c : ClientRef) :
    c ∈ (buildTree calls).root.subscribersAt S ↔
      ∃ topic, holdsSubscription calls c topic ∧ splitTopic topic = S := by
  unfold buildTree
  rw [mem_subscribersAt_addAll]
  have h0 : ¬ c ∈ NewTopicTree.root.subscribersAt S := by
    simp [NewTopicTree, subscribersAt_empty]
  constructor
  · intro h
    rcases h with h | ⟨topic, hmem, hv, hsp⟩
    · exact absurd h h0
    · exact ⟨topic, (holdsSubscription_iff _ _ _).2 ⟨hmem, hv⟩, hsp⟩
  · intro h
    obtain ⟨topic, hh, hsp⟩ := h
    have := (holdsSubscription_iff _ _ _).1 hh
    exact Or.inr ⟨topic, this.1, this.2, hsp⟩

/-! ## Characters of the levels -/

theorem splitOnSlash_ne_nil (cs : List Char) : splitOnSlash cs ≠ [] := by
  cases cs with
  | nil => simp [splitOnSlash]
  | cons c cs =>
    unfold splitOnSlash
    split
    · simp
    · split <;> simp

theorem mem_of_mem_splitOnSlash (cs : List Char) :
    ∀ l ∈ splitOnSlash cs, ∀ x ∈ l, x ∈ cs := by
  induction cs with
  | nil => simp [splitOnSlash]
  | cons c cs ih =>
    intro l hl x hx
    unfold splitOnSlash at hl
    split at hl
    · rcases List.mem_cons.1 hl with h | h
      · subst h; simp at hx
      · exact List.mem_cons_of_mem _ (ih l h x hx)
    · split at hl
      · rename_i heq
        exact absurd heq (splitOnSlash_ne_nil cs)
      · rename_i l1 ls heq
        rcases List.mem_cons.1 hl with h | h
        · subst h
          rcases List.mem_cons.1 hx with h2 | h2
          · subst h2; exact List.mem_cons_self _ _
          · exact List.mem_cons_of_mem _ (ih l1 (by rw [heq]; exact List.mem_cons_self _ _) x h2)
        · exact List.mem_cons_of_mem _ (ih l (by rw [heq]; exact List.mem_cons_of_mem _ h) x hx)

/-- The levels of a topic without wildcard character are neither `#` nor `+`. -/
theorem level_ne_wildcard (topic : String) (h : ContainsWildcard topic = false) :
    ∀ l ∈ splitTopic topic, l ≠ "#" ∧ l ≠ "+" := by
  intro l hl
  unfold splitTopic at hl
  obtain ⟨cs, hcs, rfl⟩ := List.mem_map.1 hl
  have hno : ∀ x ∈ topic.data, ¬ (x = '+' ∨ x = '#') := by
    intro x hx hxw
    have : ContainsWildcard topic = true := by
      unfold ContainsWildcard
      rw [List.any_eq_true]
      exact ⟨x, hx, by simpa using hxw⟩
    rw [h] at this
    exact absurd this (by decide)
  constructor
  · intro he
    have hd : cs = ['#'] := by
      have := congrArg String.data he
      simpa using this
    subst hd
    exact hno '#' (mem_of_mem_splitOnSlash _ _ hcs '#' (by simp)) (Or.inr rfl)
  · intro he
    have hd : cs = ['+'] := by
      have := congrArg String.data he
      simpa using this
    subst hd
    exact hno '+' (mem_of_mem_splitOnSlash _ _ hcs '+' (by simp)) (Or.inl rfl)

/-- C2: for every tree built by a sequence of `AddSubscription` calls and every
well-formed concrete topic `T`, `SubscribersOf(T)` returns no error and a
duplicate-free list whose members are exactly the clients holding a
subscription `S` that matches `T` in the words of the claim (`topicMatches` on
the levels of `S` and `T`); and the named instances hold: `a/#` matches `a/b`
and `a/b/c` but not `a`, `/a/+/c/#` matches `/a/b/c/d` but not `/a/b/c`, and
`a/+` matches `a/b` but neither `a` nor `a/b/c`. -/
theorem C2_subscribersOf_exact (calls : List (ClientRef × String)) (T : String)
    (hT : validPublishTopic T = true) :
    ((buildTree calls).SubscribersOf T).2 = none ∧
    ((buildTree calls).SubscribersOf T).1.Nodup ∧
    (∀ c, c ∈ ((buildTree calls).SubscribersOf T).1 ↔
      ∃ S, holdsSubscription calls c S ∧
        topicMatches (splitTopic S) (splitTopic T) = true) ∧
    (((buildTree [(1, "a/#")]).SubscribersOf "a/b").1 = [1] ∧
     ((buildTree [(1, "a/#")]).SubscribersOf "a/b/c").1 = [1] ∧
     ((buildTree [(1, "a/#")]).SubscribersOf "a").1 = [] ∧
     ((buildTree [(1, "/a/+/c/#")]).SubscribersOf "/a/b/c/d").1 = [1] ∧
     ((buildTree [(1, "/a/+/c/#")]).SubscribersOf "/a/b/c").1 = [] ∧
     ((buildTree [(1, "a/+")]).SubscribersOf "a/b").1 = [1] ∧
     ((buildTree [(1, "a/+")]).SubscribersOf "a").1 = [] ∧
     ((buildTree [(1, "a/+")]).SubscribersOf "a/b/c").1 = []) := by
  have hw : ContainsWildcard T = false := by
    unfold validPublishTopic at hT
    simp at hT
    exact hT.2
  have hlev : ∀ t ∈ splitTopic T, t ≠ "#" := fun t ht => (level_ne_wildcard T hw t ht).1
  refine ⟨?_, ?_, ?_, by decide⟩
  · simp [TopicTree.SubscribersOf, hT]
  · simp only [TopicTree.SubscribersOf, hT, if_true]
    exact List.nodup_dedup _
  · intro c
    simp only [TopicTree.SubscribersOf, hT, if_true, List.mem_dedup]
    rw [mem_collect_iff (splitTopic T) hlev]
    constructor
    · intro h
      obtain ⟨S, hS, hm⟩ := h
      obtain ⟨topic, hh, hsp⟩ := (mem_subscribersAt_buildTree calls S c).1 hS
      exact ⟨topic, hh, by rw [hsp]; exact hm⟩
    · intro h
      obtain ⟨topic, hh, hm⟩ := h
      exact ⟨splitTopic topic, (mem_subscribersAt_buildTree calls _ c).2 ⟨topic, hh, rfl⟩, hm⟩

theorem C2_subscribersOf_exact_witness :
    validPublishTopic "/a/b/c/d/e" = true ∧
    ((buildTree [(1, "a"), (2, "/a/+/c/d"), (3, "/a/+/c/#"), (4, "/a/+/c/d/+")]).SubscribersOf
      "/a/b/c/d/e").1.Nodup ∧
    3 ∈ ((buildTree [(1, "a"), (2, "/a/+/c/d"), (3, "/a/+/c/#"), (4, "/a/+/c/d/+")]).SubscribersOf
      "/a/b/c/d/e").1 :=
  ⟨by decide,
   (C2_subscribersOf_exact [(1, "a"), (2, "/a/+/c/d"), (3, "/a/+/c/#"), (4, "/a/+/c/d/+")]
      "/a/b/c/d/e" (by decide)).2.1,
   ((C2_subscribersOf_exact [(1, "a"), (2, "/a/+/c/d"), (3, "/a/+/c/#"), (4, "/a/+/c/d/+")]
      "/a/b/c/d/e" (by decide)).2.2.1 3).2
    ⟨"/a/+/c/#", ⟨[(1, "a"), (2, "/a/+/c/d")], [(4, "/a/+/c/d/+")], rfl, by decide⟩,
      by decide⟩⟩

/-! ## The level grammar and the defects of a topic string -/

theorem splitOnSlash_cons_slash (cs : List Char) :
    splitOnSlash ('/' :: cs) = [] :: splitOnSlash cs := by
  simp [splitOnSlash]

theorem splitOnSlash_cons_other (c : Char) (cs : List Char) (hc : c ≠ '/') :
    ∃ hd tl, splitOnSlash cs = hd :: tl ∧ splitOnSlash (c :: cs) = (c :: hd) :: tl := by
  cases h : splitOnSlash cs with
  | nil => exact absurd h (splitOnSlash_ne_nil cs)
  | cons hd tl =>
    refine ⟨hd, tl, rfl, ?_⟩
    simp [splitOnSlash, hc, h]

theorem head_splitOnSlash_nil (cs : List Char) :
    (splitOnSlash cs).head? = some [] ↔ cs = [] ∨ cs.head? = some '/' := by
  cases cs with
  | nil => simp [splitOnSlash]
  | cons c cs =>
    by_cases hc : c = '/'
    · subst hc
      simp [splitOnSlash_cons_slash]
    · obtain ⟨hd, tl, _, h2⟩ := splitOnSlash_cons_other c cs hc
      simp [h2, hc]

theorem nil_mem_tail_splitOnSlash (cs : List Char) :
    [] ∈ (splitOnSlash cs).tail ↔ cs.getLast? = some '/' ∨ hasDoubleSlash cs = true := by
  induction cs with
  | nil => simp [splitOnSlash, hasDoubleSlash]
  | cons c cs ih =>
    by_cases hc : c = '/'
    · subst hc
      rw [splitOnSlash_cons_slash, List.tail_cons]
      have hmem : [] ∈ splitOnSlash cs ↔
          (splitOnSlash cs).head? = some [] ∨ [] ∈ (splitOnSlash cs).tail := by
        cases h : splitOnSlash cs with
        | nil => simp
        | cons hd tl =>
          simp only [List.mem_cons, List.head?_cons, List.tail_cons, Option.some.injEq]
          constructor
          · intro h1
            rcases h1 with h1 | h1
            · exact Or.inl h1.symm
            · exact Or.inr h1
          · intro h1
            rcases h1 with h1 | h1
            · exact Or.inl h1.symm
            · exact Or.inr h1
      rw [hmem, ih, head_splitOnSlash_nil]
      cases cs with
      | nil => simp [hasDoubleSlash]
      | cons c2 cs2 =>
        simp only [List.getLast?_cons_cons, hasDoubleSlash, List.head?_cons, decide_True,
          Bool.true_and, Bool.or_eq_true, decide_eq_true_eq]
        simp only [reduceCtorEq, false_or]
        tauto
    · obtain ⟨hd, tl, h1, h2⟩ := splitOnSlash_cons_other c cs hc
      rw [h2, List.tail_cons]
      have ht : tl = (splitOnSlash cs).tail := by rw [h1]; rfl
      rw [ht, ih]
      cases cs with
      | nil => simp [hasDoubleSlash, hc]
      | cons c2 cs2 =>
        simp [List.getLast?_cons_cons, hasDoubleSlash, hc]

theorem splitOnSlash_eq_single_nil (cs : List Char) (h : splitOnSlash cs = [[]]) : cs = [] := by
  cases cs with
  | nil => rfl
  | cons c cs =>
    by_cases hc : c = '/'
    · subst hc
      rw [splitOnSlash_cons_slash] at h
      simp at h
      exact absurd h (splitOnSlash_ne_nil cs)
    · obtain ⟨hd, tl, _, h2⟩ := splitOnSlash_cons_other c cs hc
      rw [h2] at h
      simp at h

theorem levelOk_last (first : Bool) (l : String) :
    levelOk first true l = true ↔
      l ≠ "" ∧ (l.data.contains '#' = true → l = "#") ∧ (l.data.contains '+' = true → l = "+") := by
  unfold levelOk
  by_cases h0 : l = ""
  · subst h0; simp
  · by_cases h1 : l = "#"
    · subst h1; simp
    · by_cases h2 : l = "+"
      · subst h2; simp
      · simp [h0, h1, h2]

theorem levelOk_inner (first : Bool) (l : String) :
    levelOk first false l = true ↔
      (l = "" → first = true) ∧ l.data.contains '#' = false ∧
        (l.data.contains '+' = true → l = "+") := by
  unfold levelOk
  by_cases h0 : l = ""
  · subst h0; simp
  · by_cases h1 : l = "#"
    · subst h1; simp
    · by_cases h2 : l = "+"
      · subst h2; simp
      · simp [h0, h1, h2]

theorem levelsOk_iff (L : List String) (first : Bool) :
    levelsOk first L = true ↔
      L ≠ [] ∧ (first = false → L.head? ≠ some "") ∧ L ≠ [""] ∧ "" ∉ L.tail ∧
        hashMisplaced L = false ∧ plusMisplaced L = false := by
  induction L generalizing first with
  | nil => simp [levelsOk]
  | cons l rest ih =>
    cases rest with
    | nil =>
      simp only [levelsOk, levelOk_last, hashMisplaced, plusMisplaced]
      simp
      intro h0 _ _ _
      exact h0
    | cons l2 ls =>
      have ih2 := ih false
      simp only [levelsOk, Bool.and_eq_true, levelOk_inner, ih2, hashMisplaced, plusMisplaced]
      simp
      constructor
      · rintro ⟨⟨a1, a2, a3⟩, b1, _, b3, b4, b5, b6⟩
        refine ⟨?_, ⟨fun e => b1 e.symm, b3⟩, ⟨a2, b4⟩, a3, b5, b6⟩
        intro hf he
        have h := a1 he
        rw [hf] at h
        exact Bool.noConfusion h
      · rintro ⟨c1, ⟨c2a, c2b⟩, ⟨c3a, c3b⟩, c4, c5, c6⟩
        refine ⟨⟨?_, c3a, c4⟩, fun e => c2a e.symm, fun e => absurd e.symm c2a, c2b, c3b, c5, c6⟩
        intro he
        cases first with
        | false => exact absurd he (c1 rfl)
        | true => rfl

theorem splitTopic_tail_empty_level (topic : String) :
    "" ∈ (splitTopic topic).tail ↔
      hasTrailingSlash topic = true ∨ hasDoubleSlash topic.data = true := by
  unfold splitTopic hasTrailingSlash
  rw [← List.map_tail, decide_eq_true_eq, ← nil_mem_tail_splitOnSlash, List.mem_map]
  constructor
  · rintro ⟨cs, hcs, he⟩
    have hd : cs = [] := by
      have := congrArg String.data he
      simpa using this
    subst hd
    exact hcs
  · intro h
    exact ⟨[], h, rfl⟩

theorem splitTopic_single_empty (topic : String) (h : splitTopic topic = [""]) :
    topic = "" := by
  unfold splitTopic at h
  have h2 : splitOnSlash topic.data = [[]] := by
    cases hs : splitOnSlash topic.data with
    | nil => exact absurd hs (splitOnSlash_ne_nil _)
    | cons hd tl =>
      rw [hs] at h
      simp only [List.map_cons, List.cons.injEq, List.map_eq_nil_iff] at h
      obtain ⟨h3, h4⟩ := h
      have hd0 : hd = [] := by
        have := congrArg String.data h3
        simpa using this
      rw [hd0, h4]
  have h3 := splitOnSlash_eq_single_nil _ h2
  exact String.ext h3

theorem splitTopic_ne_nil (topic : String) : splitTopic topic ≠ [] := by
  unfold splitTopic
  simp [splitOnSlash_ne_nil]

/-- The level grammar of `AddSubscription` accepts exactly the well-formed
topic strings. -/
theorem validSubscriptionTopic_iff (topic : String) :
    validSubscriptionTopic topic = true ↔ wellFormedTopic topic = true := by
  unfold validSubscriptionTopic wellFormedTopic malformedTopic
  rw [levelsOk_iff]
  simp only [Bool.and_eq_true, decide_eq_true_eq, Bool.not_eq_true', Bool.or_eq_false_iff]
  constructor
  · rintro ⟨_, _, h3, h4, h5, h6⟩
    have h7 := fun h => h4 ((splitTopic_tail_empty_level topic).2 h)
    refine ⟨?_, ⟨⟨?_, ?_⟩, h5⟩, h6⟩
    · intro he
      subst he
      exact h3 (by decide)
    · cases hb : hasTrailingSlash topic with
      | false => rfl
      | true => exact absurd (Or.inl hb) h7
    · cases hb : hasDoubleSlash topic.data with
      | false => rfl
      | true => exact absurd (Or.inr hb) h7
  · rintro ⟨h1, ⟨⟨h2, h3⟩, h5⟩, h6⟩
    refine ⟨splitTopic_ne_nil topic, fun h => absurd h (by decide), ?_, ?_, h5, h6⟩
    · intro he
      exact h1 (splitTopic_single_empty topic he)
    · intro hm
      rcases (splitTopic_tail_empty_level topic).1 hm with h | h
      · rw [h2] at h; exact Bool.noConfusion h
      · rw [h3] at h; exact Bool.noConfusion h

theorem AddSubscription_malformed (tt : TopicTree) (client : ClientRef) (topic : String)
    (h : validSubscriptionTopic topic = false) :
    (tt.AddSubscription client topic).err = some TreeError.MalformedTopic ∧
      (tt.AddSubscription client topic).first = false ∧
      (tt.AddSubscription client topic).tree = tt := by
  simp [TopicTree.AddSubscription, h]

theorem AddSubscription_new_wellFormed (client : ClientRef) (topic : String)
    (h : validSubscriptionTopic topic = true) :
    (NewTopicTree.AddSubscription client topic).first = true ∧
      (NewTopicTree.AddSubscription client topic).err = none := by
  simp [TopicTree.AddSubscription, h, NewTopicTree, subscribersAt_empty]

/-- C9: `AddSubscription` returns an error together with `first = false` for
every client, every tree and every topic string that has a trailing `/`, a
`//`, a `#` that is not the whole final level, or a `+` that is not a whole
level (so for `alpha/`, `a//b`, `a/#/b`, `a/#/`); for every well-formed topic
(so for `alpha`, `/alpha`, `a/b/c/d`, `#`, `/#`, `+`, `/+/b/+`) on an empty
tree it returns `first = true` and no error. -/
theorem C9_addSubscription_grammar (tt : TopicTree) (client : ClientRef) (topic : String) :
    (malformedTopic topic = true →
      (tt.AddSubscription client topic).err = some TreeError.MalformedTopic ∧
        (tt.AddSubscription client topic).first = false) ∧
    (wellFormedTopic topic = true →
      (NewTopicTree.AddSubscription client topic).first = true ∧
        (NewTopicTree.AddSubscription client topic).err = none) ∧
    (∀ t ∈ ["alpha/", "a//b", "a/#/b", "a/#/"], malformedTopic t = true) ∧
    (∀ t ∈ ["alpha", "/alpha", "a/b/c/d", "#", "/#", "+", "/+/b/+"],
      wellFormedTopic t = true) := by
  refine ⟨?_, ?_, by decide, by decide⟩
  · intro h
    have hv : validSubscriptionTopic topic = false := by
      cases hb : validSubscriptionTopic topic with
      | false => rfl
      | true =>
        have hw := (validSubscriptionTopic_iff topic).1 hb
        unfold wellFormedTopic at hw
        rw [h] at hw
        simp at hw
    have := AddSubscription_malformed tt client topic hv
    exact ⟨this.1, this.2.1⟩
  · intro h
    exact AddSubscription_new_wellFormed client topic ((validSubscriptionTopic_iff topic).2 h)

theorem C9_addSubscription_grammar_witness :
    (malformedTopic "a/#/b" = true ∧
      (NewTopicTree.AddSubscription 1 "a/#/b").err = some TreeError.MalformedTopic ∧
      (NewTopicTree.AddSubscription 1 "a/#/b").first = false) ∧
    (wellFormedTopic "/+/b/+" = true ∧
      (NewTopicTree.AddSubscription 1 "/+/b/+").first = true ∧
      (NewTopicTree.AddSubscription 1 "/+/b/+").err = none) :=
  ⟨⟨by decide, (C9_addSubscription_grammar NewTopicTree 1 "a/#/b").1 (by decide)⟩,
   ⟨by decide, (C9_addSubscription_grammar NewTopicTree 1 "/+/b/+").2.1 (by decide)⟩⟩

/-! ## Lemmas on the topic-id index -/

theorem topicNames.new_WF : topicNames.new.WF := by
  intro e he
  simp [topicNames.new] at he

theorem topicNames.getId_of_not_contains (t : topicNames) (topic : String)
    (h : t.containsTopic topic = false) : t.getId topic = 0 := by
  unfold topicNames.getId
  unfold topicNames.containsTopic at h
  have : t.contents.find? (fun e => decide (e.2 = topic)) = none := by
    rw [List.find?_eq_none]
    intro e he
    have h2 := List.any_eq_false.1 h e he
    simpa using h2
  rw [this]

theorem topicNames.getId_ne_zero (t : topicNames) (topic : String) (hwf : t.WF)
    (h : t.containsTopic topic = true) : t.getId topic ≠ 0 := by
  unfold topicNames.getId
  cases hf : t.contents.find? (fun e => decide (e.2 = topic)) with
  | none =>
    unfold topicNames.containsTopic at h
    rw [List.any_eq_true] at h
    obtain ⟨e, he, hp⟩ := h
    rw [List.find?_eq_none] at hf
    exact absurd hp (hf e he)
  | some e =>
    have hmem := List.mem_of_find?_eq_some hf
    have := (hwf e hmem).1
    simp only
    omega

theorem topicNames.contains_of_getId_ne_zero (t : topicNames) (topic : String)
    (h : t.getId topic ≠ 0) : t.containsTopic topic = true := by
  cases hc : t.containsTopic topic with
  | true => rfl
  | false => exact absurd (t.getId_of_not_contains topic hc) h

theorem topicNames.getTopic_getId (t : topicNames) (topic : String)
    (h : t.containsTopic topic = true) :
    ∃ e ∈ t.contents, e.1 = t.getId topic ∧ e.2 = topic := by
  unfold topicNames.getId
  cases hf : t.contents.find? (fun e => decide (e.2 = topic)) with
  | none =>
    unfold topicNames.containsTopic at h
    rw [List.any_eq_true] at h
    obtain ⟨e, he, hp⟩ := h
    rw [List.find?_eq_none] at hf
    exact absurd hp (hf e he)
  | some e =>
    refine ⟨e, List.mem_of_find?_eq_some hf, rfl, ?_⟩
    have := List.find?_some hf
    simpa using this

/-- What `putTopic` does for a topic the index does not hold, while ids are
left: the fresh id `next + 1` is bound to the topic. -/
theorem topicNames.putTopic_fresh (t : topicNames) (topic : String)
    (hc : t.containsTopic topic = false) (hroom : t.next < 0xFFFF) :
    t.putTopic topic = some (t.next + 1,
      { contents := t.contents ++ [(t.next + 1, topic)], next := t.next + 1 }) := by
  unfold topicNames.putTopic
  have : ¬ (0xFFFF ≤ t.next) := by omega
  simp [hc, this]

theorem topicNames.getId_after_fresh (t : topicNames) (topic : String)
    (hc : t.containsTopic topic = false) :
    topicNames.getId { contents := t.contents ++ [(t.next + 1, topic)], next := t.next + 1 }
      topic = t.next + 1 := by
  unfold topicNames.getId
  have h1 : t.contents.find? (fun e => decide (e.2 = topic)) = none := by
    rw [List.find?_eq_none]
    intro e he
    have h2 := List.any_eq_false.1 hc e he
    simpa using h2
  simp [List.find?_append, h1]

theorem topicNames.getTopic_fresh_none (t : topicNames) (hwf : t.WF) :
    t.getTopic (t.next + 1) = none := by
  unfold topicNames.getTopic
  have : t.contents.find? (fun e => decide (e.1 = t.next + 1)) = none := by
    rw [List.find?_eq_none]
    intro e he
    have := (hwf e he).2
    simp
    omega
  rw [this]
  rfl

theorem topicNames.getTopic_after_fresh (t : topicNames) (topic : String) (hwf : t.WF) :
    topicNames.getTopic { contents := t.contents ++ [(t.next + 1, topic)], next := t.next + 1 }
      (t.next + 1) = some topic := by
  unfold topicNames.getTopic
  have h1 : t.contents.find? (fun e => decide (e.1 = t.next + 1)) = none := by
    rw [List.find?_eq_none]
    intro e he
    have := (hwf e he).2
    simp
    omega
  simp [List.find?_append, h1]

theorem topicNames.putTopic_WF (t : topicNames) (topic : String) (hwf : t.WF)
    (id : Nat) (t1 : topicNames) (h : t.putTopic topic = some (id, t1)) : t1.WF := by
  unfold topicNames.putTopic at h
  split at h
  · simp at h
    rw [← h.2]
    exact hwf
  · split at h
    · simp at h
    · simp at h
      rw [← h.2]
      intro e he
      simp at he
      rcases he with he | he
      · have := hwf e he
        exact ⟨this.1, by simp; omega⟩
      · subst he
        simp

/-! ## The accepted SUBSCRIBE -/

theorem deviceWrites_append (xs ys : List Event) :
    deviceWrites (xs ++ ys) = deviceWrites xs ++ deviceWrites ys := by
  induction xs with
  | nil => rfl
  | cons e es ih => cases e <;> simp [deviceWrites, ih]

/-- The run of a SUBSCRIBE from a sender with a session whose topic the tree
accepts, given the topic id the first lines settle. -/
theorem handle_SUBSCRIBE_accepted (s : State) (sm : SubscribeMessage) (c : uConn)
    (r : uAddr) (cl : Client) (topicid : Nat) (ix : topicNames)
    (hid : subscribeTopicId s.ag.tIndex sm = some (topicid, ix))
    (herr : (s.ag.tTree.AddSubscription (GetClient s.heap s.ag.clients r) sm.TopicName).err = none)
    (hcl : deref s.heap (GetClient s.heap s.ag.clients r) = some cl) :
    (handle_SUBSCRIBE s sm c r).fault = false ∧
    deviceWrites (handle_SUBSCRIBE s sm c r).out =
      [(c, r, Message.suback 0 sm.QoS topicid sm.MsgId)] ∧
    (handle_SUBSCRIBE s sm c r).st.ag.tIndex = ix ∧
    (handle_SUBSCRIBE s sm c r).st.heap =
      s.heap.set (GetClient s.heap s.ag.clients r - 1) (cl.Register topicid) := by
  unfold handle_SUBSCRIBE
  simp only [hid, herr, hcl]
  cases (s.ag.tTree.AddSubscription (GetClient s.heap s.ag.clients r) sm.TopicName).first <;>
    simp [deviceWrites, State.setClient]

/-- The topic id of a SUBSCRIBE with topic id type `0`, on a well-formed index
with ids left. -/
theorem subscribeTopicId_type0 (ix : topicNames) (sm : SubscribeMessage)
    (hty : sm.TopicIdType = 0) (hwf : ix.WF)
    (hroom : ContainsWildcard sm.TopicName = true ∨
      ix.containsTopic sm.TopicName = true ∨ ix.next < 0xFFFF) :
    subscribeTopicId ix sm =
      if ContainsWildcard sm.TopicName = true then some (0, ix)
      else if ix.containsTopic sm.TopicName = true then some (ix.getId sm.TopicName, ix)
      else some (ix.next + 1,
        { contents := ix.contents ++ [(ix.next + 1, sm.TopicName)], next := ix.next + 1 }) := by
  unfold subscribeTopicId
  by_cases hw : ContainsWildcard sm.TopicName = true
  · simp [hty, hw]
  · have hw2 : ContainsWildcard sm.TopicName = false := by simpa using hw
    by_cases hc : ix.containsTopic sm.TopicName = true
    · have := ix.getId_ne_zero sm.TopicName hwf hc
      simp [hty, hw2, hc, this]
    · have hc2 : ix.containsTopic sm.TopicName = false := by simpa using hc
      have h0 := ix.getId_of_not_contains sm.TopicName hc2
      have hr : ix.next < 0xFFFF := by
        rcases hroom with h | h | h
        · exact absurd h hw
        · exact absurd h hc
        · exact h
      simp [hty, hw2, hc2, h0, ix.putTopic_fresh sm.TopicName hc2 hr]

/-- A SUBSCRIBE with topic id type 0 whose topic `AddSubscription` accepts,
from a sender with a session, on a well-formed index that has the topic or an
id left: `handle_SUBSCRIBE` does not panic and sends exactly one datagram, the
SUBACK with return code 0, the request's QoS and msg id, and a topic id that
is, for a topic without wildcard, the index's non-zero id for the topic (the
existing id, index unchanged, when the topic was indexed; a newly assigned id,
bound to no topic before, otherwise) and `0` for a topic with a wildcard, in
which case the index is unchanged. -/
theorem handle_SUBSCRIBE_suback_with_session (s : State) (sm : SubscribeMessage) (c : uConn)
    (r : uAddr) (cl : Client)
    (hty : sm.TopicIdType = 0)
    (hacc : (s.ag.tTree.AddSubscription (GetClient s.heap s.ag.clients r) sm.TopicName).err = none)
    (hsess : deref s.heap (GetClient s.heap s.ag.clients r) = some cl)
    (hwf : s.ag.tIndex.WF)
    (hroom : ContainsWildcard sm.TopicName = true ∨
      s.ag.tIndex.containsTopic sm.TopicName = true ∨ s.ag.tIndex.next < 0xFFFF) :
    (handle_SUBSCRIBE s sm c r).fault = false ∧
    ∃ topicid,
      deviceWrites (handle_SUBSCRIBE s sm c r).out =
        [(c, r, Message.suback 0 sm.QoS topicid sm.MsgId)] ∧
      (ContainsWildcard sm.TopicName = false →
        topicid ≠ 0 ∧
        topicid = (handle_SUBSCRIBE s sm c r).st.ag.tIndex.getId sm.TopicName ∧
        (s.ag.tIndex.containsTopic sm.TopicName = true →
          topicid = s.ag.tIndex.getId sm.TopicName ∧
          (handle_SUBSCRIBE s sm c r).st.ag.tIndex = s.ag.tIndex) ∧
        (s.ag.tIndex.containsTopic sm.TopicName = false →
          s.ag.tIndex.getTopic topicid = none ∧
          (handle_SUBSCRIBE s sm c r).st.ag.tIndex.getTopic topicid = some sm.TopicName)) ∧
      (ContainsWildcard sm.TopicName = true →
        topicid = 0 ∧ (handle_SUBSCRIBE s sm c r).st.ag.tIndex = s.ag.tIndex) := by
  have hid := subscribeTopicId_type0 s.ag.tIndex sm hty hwf hroom
  by_cases hw : ContainsWildcard sm.TopicName = true
  · rw [if_pos hw] at hid
    obtain ⟨h1, h2, h3, _⟩ := handle_SUBSCRIBE_accepted s sm c r cl 0 _ hid hacc hsess
    refine ⟨h1, 0, h2, ?_, fun _ => ⟨rfl, h3⟩⟩
    intro hf
    rw [hf] at hw
    exact absurd hw (by decide)
  · rw [if_neg hw] at hid
    by_cases hc : s.ag.tIndex.containsTopic sm.TopicName = true
    · rw [if_pos hc] at hid
      obtain ⟨h1, h2, h3, _⟩ := handle_SUBSCRIBE_accepted s sm c r cl _ _ hid hacc hsess
      refine ⟨h1, _, h2, ?_, fun h => absurd h hw⟩
      intro _
      refine ⟨s.ag.tIndex.getId_ne_zero sm.TopicName hwf hc, by rw [h3], fun _ => ⟨rfl, h3⟩, ?_⟩
      intro hf
      rw [hf] at hc
      exact absurd hc (by decide)
    · rw [if_neg hc] at hid
      have hc2 : s.ag.tIndex.containsTopic sm.TopicName = false := by simpa using hc
      obtain ⟨h1, h2, h3, _⟩ := handle_SUBSCRIBE_accepted s sm c r cl _ _ hid hacc hsess
      refine ⟨h1, _, h2, ?_, fun h => absurd h hw⟩
      intro _
      refine ⟨Nat.succ_ne_zero _, ?_, fun h => absurd h hc, fun _ => ⟨?_, ?_⟩⟩
      · rw [h3, s.ag.tIndex.getId_after_fresh sm.TopicName hc2]
      · exact s.ag.tIndex.getTopic_fresh_none hwf
      · rw [h3]
        exact s.ag.tIndex.getTopic_after_fresh sm.TopicName hwf

theorem handle_SUBSCRIBE_suback_with_session_twoClients :
    ((twoClients.ag.tTree.AddSubscription (GetClient twoClients.heap twoClients.ag.clients 10)
        "foo").err = none ∧
      deref twoClients.heap (GetClient twoClients.heap twoClients.ag.clients 10) =
        some (NewClient "c1" 1 10) ∧
      twoClients.ag.tIndex.next < 0xFFFF) ∧
    (handle_SUBSCRIBE twoClients ⟨0, "foo", 1, 7⟩ 1 10).fault = false ∧
    ∃ topicid,
      deviceWrites (handle_SUBSCRIBE twoClients ⟨0, "foo", 1, 7⟩ 1 10).out =
        [(1, 10, Message.suback 0 1 topicid 7)] ∧
      (ContainsWildcard "foo" = false →
        topicid ≠ 0 ∧
        topicid = (handle_SUBSCRIBE twoClients ⟨0, "foo", 1, 7⟩ 1 10).st.ag.tIndex.getId "foo" ∧
        (twoClients.ag.tIndex.containsTopic "foo" = true →
          topicid = twoClients.ag.tIndex.getId "foo" ∧
          (handle_SUBSCRIBE twoClients ⟨0, "foo", 1, 7⟩ 1 10).st.ag.tIndex =
            twoClients.ag.tIndex) ∧
        (twoClients.ag.tIndex.containsTopic "foo" = false →
          twoClients.ag.tIndex.getTopic topicid = none ∧
          (handle_SUBSCRIBE twoClients ⟨0, "foo", 1, 7⟩ 1 10).st.ag.tIndex.getTopic topicid =
            some "foo")) ∧
      (ContainsWildcard "foo" = true →
        topicid = 0 ∧
        (handle_SUBSCRIBE twoClients ⟨0, "foo", 1, 7⟩ 1 10).st.ag.tIndex =
          twoClients.ag.tIndex) :=
  ⟨by decide,
   handle_SUBSCRIBE_suback_with_session twoClients ⟨0, "foo", 1, 7⟩ 1 10 (NewClient "c1" 1 10)
     rfl (by decide) (by decide) topicNames.new_WF (Or.inr (Or.inr (by decide)))⟩

/-- C7: the SUBSCRIBE with topic id type 0 and topic `foo`, which
`AddSubscription` accepts, arriving from address 77, which has no session on
the gateway with the sessions of `c1` and `c2`: `handle_SUBSCRIBE` opens the
upstream subscription and then ends in a panic on `client.Register`, so no
SUBACK is sent, where the claim says exactly one is.  The same SUBSCRIBE from
the address of `c1` is answered with the one SUBACK the claim describes. -/
theorem C7_accepted_subscribe_without_suback :
    (twoClients.ag.tTree.AddSubscription (GetClient twoClients.heap twoClients.ag.clients 77)
      "foo").err = none ∧
    (handle_SUBSCRIBE twoClients ⟨0, "foo", 1, 7⟩ 7 77).fault = true ∧
    (handle_SUBSCRIBE twoClients ⟨0, "foo", 1, 7⟩ 7 77).out =
      [Event.startSubscription "foo" 2] ∧
    deviceWrites (handle_SUBSCRIBE twoClients ⟨0, "foo", 1, 7⟩ 7 77).out = [] ∧
    deviceWrites (handle_SUBSCRIBE twoClients ⟨0, "foo", 1, 7⟩ 1 10).out =
      [(1, 10, Message.suback 0 1 1 7)] := by
  decide

/-! ## Lemmas on the heap of clients and the pending queue -/

/-- A reference that dereferences is not `nil` and lies in the heap. -/
theorem deref_some (heap : List Client) (p : ClientRef) (c : Client)
    (h : deref heap p = some c) : p ≠ 0 ∧ p - 1 < heap.length ∧ heap[p - 1]? = some c := by
  unfold deref at h
  split at h
  · simp at h
  · rename_i hp
    refine ⟨hp, ?_, h⟩
    by_contra hlt
    rw [List.getElem?_eq_none (Nat.le_of_not_lt hlt)] at h
    simp at h

theorem deref_set_same (heap : List Client) (p : ClientRef) (c c1 : Client)
    (h : deref heap p = some c) : deref (heap.set (p - 1) c1) p = some c1 := by
  obtain ⟨hp, hlt, _⟩ := deref_some heap p c h
  unfold deref
  simp [hp, List.getElem?_set_self, hlt]

theorem deref_set_other (heap : List Client) (p q : Nat) (c1 : Client)
    (hq : q ≠ p) (hp : p ≠ 0) : deref (heap.set (p - 1) c1) q = deref heap q := by
  unfold deref
  by_cases hq0 : q = 0
  · simp [hq0]
  · simp only [hq0, if_false]
    rw [List.getElem?_set_ne]
    omega

theorem dequeue_fst (id : Nat) (l : List PublishMessage) :
    (dequeue id l).1 = (l.filter (fun pm => decide (pm.topicId = id))).head? := by
  induction l with
  | nil => rfl
  | cons pm rest ih =>
    by_cases h : pm.topicId = id
    · simp [dequeue, h]
    · simp [dequeue, h, ih]

theorem dequeue_snd_same (id : Nat) (l : List PublishMessage) :
    (dequeue id l).2.filter (fun pm => decide (pm.topicId = id)) =
      (l.filter (fun pm => decide (pm.topicId = id))).tail := by
  induction l with
  | nil => rfl
  | cons pm rest ih =>
    by_cases h : pm.topicId = id
    · simp [dequeue, h]
    · simp [dequeue, h, ih]

theorem dequeue_snd_other (id j : Nat) (hj : j ≠ id) (l : List PublishMessage) :
    (dequeue id l).2.filter (fun pm => decide (pm.topicId = j)) =
      l.filter (fun pm => decide (pm.topicId = j)) := by
  induction l with
  | nil => rfl
  | cons pm rest ih =>
    by_cases h : pm.topicId = id
    · have hne : ¬ pm.topicId = j := fun e => hj (e.symm.trans h)
      have hd : (dequeue id (pm :: rest)).2 = rest := by simp [dequeue, h]
      rw [hd, List.filter_cons_of_neg (by simpa using hne)]
    · have hd : (dequeue id (pm :: rest)).2 = pm :: (dequeue id rest).2 := by
        simp [dequeue, h]
      rw [hd]
      by_cases h2 : pm.topicId = j
      · rw [List.filter_cons_of_pos (by simpa using h2),
          List.filter_cons_of_pos (by simpa using h2), ih]
      · rw [List.filter_cons_of_neg (by simpa using h2),
          List.filter_cons_of_neg (by simpa using h2), ih]

/-- The run of a REGACK from a sender with a session. -/
theorem handle_REGACK_session (s : State) (ra : RegackMessage) (r : uAddr) (cl : Client)
    (hcl : deref s.heap (GetClient s.heap s.ag.clients r) = some cl) :
    (handle_REGACK s ra r).fault = false ∧
    (handle_REGACK s ra r).st.ag.clients = s.ag.clients ∧
    (handle_REGACK s ra r).st.heap =
      s.heap.set (GetClient s.heap s.ag.clients r - 1) (cl.FetchPendingMessage ra.TopicId).2 ∧
    deviceWrites (handle_REGACK s ra r).out =
      match (cl.pendingFor ra.TopicId).head? with
      | none => []
      | some pm => [(cl.Conn, cl.Address, Message.publish pm)] := by
  unfold handle_REGACK
  simp only [hcl]
  have h1 := dequeue_fst ra.TopicId cl.pending
  unfold Client.pendingFor
  cases hd : (cl.FetchPendingMessage ra.TopicId).1 with
  | none =>
    have hd2 : (dequeue ra.TopicId cl.pending).1 = none := hd
    rw [hd2] at h1
    rw [← h1]
    have hp : cl.FetchPendingMessage ra.TopicId = (none, (cl.FetchPendingMessage ra.TopicId).2) := by
      rw [← hd]
    rw [hp]
    simp [deviceWrites, State.setClient]
  | some pm =>
    have hd2 : (dequeue ra.TopicId cl.pending).1 = some pm := hd
    rw [hd2] at h1
    rw [← h1]
    have hp : cl.FetchPendingMessage ra.TopicId = (some pm, (cl.FetchPendingMessage ra.TopicId).2) := by
      rw [← hd]
    rw [hp]
    simp [deviceWrites, State.setClient, Client.Write, Client.FetchPendingMessage]

/-- No REGACK changes the registered topic ids of any client. -/
theorem handle_REGACK_keeps_registered (s : State) (ra : RegackMessage) (r : uAddr)
    (p : ClientRef) :
    (deref (handle_REGACK s ra r).st.heap p).map (fun c => c.registered) =
      (deref s.heap p).map (fun c => c.registered) := by
  cases hcl : deref s.heap (GetClient s.heap s.ag.clients r) with
  | none => simp [handle_REGACK, hcl]
  | some cl =>
    obtain ⟨_, _, hheap, _⟩ := handle_REGACK_session s ra r cl hcl
    rw [hheap]
    by_cases hp : p = GetClient s.heap s.ag.clients r
    · subst hp
      rw [deref_set_same _ _ cl _ hcl, hcl]
      simp [Client.FetchPendingMessage]
    · rw [deref_set_other _ _ _ _ hp (deref_some _ _ _ hcl).1]

/-! ## Deferred publish and REGACK -/

/-- C3: the deferred publish does queue the PUBLISH, send REGISTER(1, 0, "a")
in its place and deliver the queued PUBLISH on REGACK(1), leaving nothing
pending; but no REGACK changes any client's registered ids, so after the
sequence client `c1` is still not registered for id 1 (the claim says it is)
and the next message on `a` is deferred again. -/
theorem C3_regack_leaves_client_unregistered (s : State) (ra : RegackMessage) (r : uAddr)
    (p : ClientRef) :
    (deref (handle_REGACK s ra r).st.heap p).map (fun c => c.registered) =
      (deref s.heap p).map (fun c => c.registered) ∧
    ((deref afterSubscribes.heap 1).map (fun c => c.Registered 1) = some false ∧
     (publish afterSubscribes (msgA [7]) 1).out = [Event.write 1 10 (Message.register 1 0 "a")] ∧
     (deref (publish afterSubscribes (msgA [7]) 1).st.heap 1).map (fun c => c.pendingFor 1) =
       some [pubA 1 [7]] ∧
     (handle_REGACK (publish afterSubscribes (msgA [7]) 1).st ⟨1, 0, 0⟩ 10).out =
       [Event.write 1 10 (Message.publish (pubA 1 [7]))] ∧
     (deref (handle_REGACK (publish afterSubscribes (msgA [7]) 1).st ⟨1, 0, 0⟩ 10).st.heap 1).map
       (fun c => c.pendingFor 1) = some [] ∧
     (deref (handle_REGACK (publish afterSubscribes (msgA [7]) 1).st ⟨1, 0, 0⟩ 10).st.heap 1).map
       (fun c => c.Registered 1) = some false ∧
     (publish (handle_REGACK (publish afterSubscribes (msgA [7]) 1).st ⟨1, 0, 0⟩ 10).st
       (msgA [8]) 1).out = [Event.write 1 10 (Message.register 1 0 "a")]) :=
  ⟨handle_REGACK_keeps_registered s ra r p, by decide⟩

/-! ## DISCONNECT -/

/-- C4 (counterexample): after `c1` and `c2` both subscribed to `foo`, the
DISCONNECTs (duration 0) of `c1` and then `c2` issue no upstream unsubscribe at
all, and both clients are still in the registry and still subscribers of
`foo`. -/
theorem C4_counterexample :
    upstreamUnsubscribes ((handle_DISCONNECT bothOnFoo ⟨0⟩ 10).out ++
      (handle_DISCONNECT (handle_DISCONNECT bothOnFoo ⟨0⟩ 10).st ⟨0⟩ 20).out) ≠ ["foo"] ∧
    GetClient (handle_DISCONNECT bothOnFoo ⟨0⟩ 10).st.heap
      (handle_DISCONNECT bothOnFoo ⟨0⟩ 10).st.ag.clients 10 = 1 ∧
    (handle_DISCONNECT bothOnFoo ⟨0⟩ 10).st.ag.clients = [("c1", 1), ("c2", 2)] ∧
    ((handle_DISCONNECT (handle_DISCONNECT bothOnFoo ⟨0⟩ 10).st ⟨0⟩ 20).st.ag.tTree.SubscribersOf
      "foo").1 = [1, 2] := by
  decide

/-- C4 (amended): `handle_DISCONNECT`, whatever the duration, only logs: the
state (registry, client objects, topic tree, index) is unchanged, so the client
stays in the registry and in every subscriber set, no upstream unsubscribe is
issued, and nothing is sent to the device. -/
theorem C4_disconnect_changes_nothing (s : State) (dm : DisconnectMessage) (r : uAddr) :
    (handle_DISCONNECT s dm r).st = s ∧
    (handle_DISCONNECT s dm r).out = [] ∧
    upstreamUnsubscribes (handle_DISCONNECT s dm r).out = [] ∧
    deviceWrites (handle_DISCONNECT s dm r).out = [] ∧
    (handle_DISCONNECT s dm r).fault = false :=
  ⟨rfl, rfl, rfl, rfl, rfl⟩

/-! ## One REGACK, at most one PUBLISH -/

theorem handle_REGACK_eq_with (s : State) (ra : RegackMessage) (r : uAddr) :
    handle_REGACK s ra r = handle_REGACK_with Client.FetchPendingMessage s ra r := rfl

/-- The run of a REGACK from a sender with a session, whatever
`FetchPendingMessage` is. -/
theorem handle_REGACK_with_session (fetch : Client → Nat → Option PublishMessage × Client)
    (s : State) (ra : RegackMessage) (r : uAddr) (cl : Client)
    (hcl : deref s.heap (GetClient s.heap s.ag.clients r) = some cl) :
    (handle_REGACK_with fetch s ra r).fault = false ∧
    (handle_REGACK_with fetch s ra r).out =
      (match (fetch cl ra.TopicId).1 with
        | none => []
        | some pm =>
          [Event.write (fetch cl ra.TopicId).2.Conn (fetch cl ra.TopicId).2.Address
            (Message.publish pm)]) ∧
    (handle_REGACK_with fetch s ra r).st.heap =
      s.heap.set (GetClient s.heap s.ag.clients r - 1) (fetch cl ra.TopicId).2 := by
  unfold handle_REGACK_with
  simp only [hcl]
  cases hf : fetch cl ra.TopicId with
  | mk o c1 =>
    cases o with
    | none => simp [State.setClient]
    | some pm => simp [State.setClient, Client.Write]

/-- One REGACK causes at most one event, whatever `FetchPendingMessage` is. -/
theorem handle_REGACK_with_length (fetch : Client → Nat → Option PublishMessage × Client)
    (s : State) (ra : RegackMessage) (r : uAddr) :
    (handle_REGACK_with fetch s ra r).out.length ≤ 1 := by
  cases hcl : deref s.heap (GetClient s.heap s.ag.clients r) with
  | none => simp [handle_REGACK_with, hcl]
  | some cl =>
    rw [(handle_REGACK_with_session fetch s ra r cl hcl).2.1]
    cases (fetch cl ra.TopicId).1 <;> simp

theorem deviceWrites_length_le (es : List Event) : (deviceWrites es).length ≤ es.length := by
  induction es with
  | nil => simp [deviceWrites]
  | cons e rest ih =>
    cases e <;> simp [deviceWrites] <;> omega

/-- One REGACK never writes two datagrams, whatever `FetchPendingMessage` is. -/
theorem handle_REGACK_with_not_two (fetch : Client → Nat → Option PublishMessage × Client)
    (s : State) (ra : RegackMessage) (r : uAddr) (w1 w2 : uConn × uAddr × Message)
    (ws : List (uConn × uAddr × Message)) :
    deviceWrites (handle_REGACK_with fetch s ra r).out ≠ w1 :: w2 :: ws := by
  intro h
  have h1 := deviceWrites_length_le (handle_REGACK_with fetch s ra r).out
  have h2 := handle_REGACK_with_length fetch s ra r
  rw [h] at h1
  simp at h1
  omega

/-- C5 (counterexample): with the two PUBLISHes of payloads `[7]` and `[8]`
queued in that order for client `c1` and topic id 1, one REGACK(1) does not
write the two of them to `c1`, whatever message `FetchPendingMessage` hands to
the handler. -/
theorem C5_counterexample :
    (deref (publish (publish afterSubscribes (msgA [7]) 1).st (msgA [8]) 1).st.heap 1).map
      (fun c => c.pendingFor 1) = some [pubA 1 [7], pubA 1 [8]] ∧
    (∀ fetch : Client → Nat → Option PublishMessage × Client,
      deviceWrites (handle_REGACK_with fetch (publish (publish afterSubscribes (msgA [7]) 1).st
        (msgA [8]) 1).st ⟨1, 0, 0⟩ 10).out ≠
          [(1, 10, Message.publish (pubA 1 [7])), (1, 10, Message.publish (pubA 1 [8]))]) ∧
    deviceWrites (handle_REGACK (publish (publish afterSubscribes (msgA [7]) 1).st
      (msgA [8]) 1).st ⟨1, 0, 0⟩ 10).out ≠
        [(1, 10, Message.publish (pubA 1 [7])), (1, 10, Message.publish (pubA 1 [8]))] :=
  ⟨by decide, fun fetch => handle_REGACK_with_not_two fetch _ _ _ _ _ _, by decide⟩

/-- C5 (amended): whatever `FetchPendingMessage` is and however many PUBLISH
messages are queued, handling one REGACK causes at most one event and never
writes two datagrams; for a sender with a session it does not panic and
writes exactly the PUBLISH that `FetchPendingMessage(topic id)` returns, to
that client, and nothing when it returns `nil`, and it leaves the client as
`FetchPendingMessage` leaves it. -/
theorem C5_regack_writes_at_most_one (fetch : Client → Nat → Option PublishMessage × Client)
    (s : State) (ra : RegackMessage) (r : uAddr) :
    (handle_REGACK_with fetch s ra r).out.length ≤ 1 ∧
    (∀ w1 w2 ws, deviceWrites (handle_REGACK_with fetch s ra r).out ≠ w1 :: w2 :: ws) ∧
    (∀ cl, deref s.heap (GetClient s.heap s.ag.clients r) = some cl →
      (handle_REGACK_with fetch s ra r).fault = false ∧
      deviceWrites (handle_REGACK_with fetch s ra r).out =
        (match (fetch cl ra.TopicId).1 with
          | none => []
          | some pm =>
            [((fetch cl ra.TopicId).2.Conn, (fetch cl ra.TopicId).2.Address,
              Message.publish pm)]) ∧
      deref (handle_REGACK_with fetch s ra r).st.heap (GetClient s.heap s.ag.clients r) =
        some (fetch cl ra.TopicId).2) ∧
    handle_REGACK s ra r = handle_REGACK_with Client.FetchPendingMessage s ra r := by
  refine ⟨handle_REGACK_with_length fetch s ra r,
    fun w1 w2 ws => handle_REGACK_with_not_two fetch s ra r w1 w2 ws, ?_, rfl⟩
  intro cl hcl
  obtain ⟨h1, h2, h3⟩ := handle_REGACK_with_session fetch s ra r cl hcl
  refine ⟨h1, ?_, ?_⟩
  · rw [h2]
    cases (fetch cl ra.TopicId).1 <;> rfl
  · rw [h3]
    exact deref_set_same _ _ cl _ hcl

theorem C5_regack_writes_at_most_one_witness :
    deref (publish (publish afterSubscribes (msgA [7]) 1).st (msgA [8]) 1).st.heap
      (GetClient (publish (publish afterSubscribes (msgA [7]) 1).st (msgA [8]) 1).st.heap
        (publish (publish afterSubscribes (msgA [7]) 1).st (msgA [8]) 1).st.ag.clients 10) =
      some { ClientId := "c1", Conn := 1, Address := 10, registered := [0],
             pending := [pubA 1 [7], pubA 1 [8]] } ∧
    (handle_REGACK_with Client.FetchPendingMessage
      (publish (publish afterSubscribes (msgA [7]) 1).st (msgA [8]) 1).st ⟨1, 0, 0⟩ 10).fault
        = false :=
  ⟨by decide,
   ((C5_regack_writes_at_most_one Client.FetchPendingMessage
      (publish (publish afterSubscribes (msgA [7]) 1).st (msgA [8]) 1).st ⟨1, 0, 0⟩ 10).2.2.1
      { ClientId := "c1", Conn := 1, Address := 10, registered := [0],
        pending := [pubA 1 [7], pubA 1 [8]] } (by decide)).1⟩

/-! ## Topic id 0 on the way to a device -/

theorem publish_keeps_index (s : State) (msg : BrokerMessage) (client : ClientRef) :
    (publish s msg client).st.ag.tIndex = s.ag.tIndex := by
  unfold publish
  cases deref s.heap client with
  | none => rfl
  | some c =>
    simp only
    split <;> rfl

/-- C6: `publish` never assigns an id: it leaves the index as it is and sends
`getId(topic)`, which is `0` for a topic the index does not hold.  On the
gateway where `c1` subscribed to `#` and nobody registered `b`, a broker
message on `b` is written to `c1` as a PUBLISH carrying topic id 0, and the
index still has no id for `b`; to a client not registered for id 0 (`c2`),
`publish` sends REGISTER with topic id 0.  The claim says the id sent to a
device is never 0. -/
theorem C6_publish_sends_topic_id_zero (s : State) (msg : BrokerMessage) (client : ClientRef) :
    (publish s msg client).st.ag.tIndex = s.ag.tIndex ∧
    (afterSubscribes.ag.tIndex.getId "b" = 0 ∧
     (afterSubscribes.ag.tTree.SubscribersOf "b").1 = [1] ∧
     (distribute afterSubscribes ⟨"b", [7], 0, false, false⟩).out =
       [Event.write 1 10 (Message.publish
         { dup := false, retain := false, qos := 0, topicIdType := 0, topicId := 0, msgId := 0,
           data := [7] })] ∧
     (distribute afterSubscribes ⟨"b", [7], 0, false, false⟩).st.ag.tIndex.getId "b" = 0 ∧
     (publish afterSubscribes ⟨"b", [7], 0, false, false⟩ 2).out =
       [Event.write 2 20 (Message.register 0 0 "b")]) :=
  ⟨publish_keeps_index s msg client, by decide⟩

/-- C8: `handle_SUBSCRIBE` calls `client.Register(topicid)` also when the id is
`0`: after the accepted SUBSCRIBE of `c1` to the wildcard topic `#` (SUBACK
with topic id 0), the registered ids of `c1` went from none to `[0]` and
`Registered(0)` from false to true.  The claim says the set is unchanged. -/
theorem C8_wildcard_subscribe_registers_zero :
    (handle_SUBSCRIBE twoClients ⟨0, "#", 1, 7⟩ 1 10).fault = false ∧
    (handle_SUBSCRIBE twoClients ⟨0, "#", 1, 7⟩ 1 10).out =
      [Event.startSubscription "#" 2, Event.write 1 10 (Message.suback 0 1 0 7)] ∧
    (deref twoClients.heap 1).map (fun c => c.Registered 0) = some false ∧
    (deref (handle_SUBSCRIBE twoClients ⟨0, "#", 1, 7⟩ 1 10).st.heap 1).map
      (fun c => c.Registered 0) = some true ∧
    (deref twoClients.heap 1).map (fun c => c.registered) = some [] ∧
    (deref (handle_SUBSCRIBE twoClients ⟨0, "#", 1, 7⟩ 1 10).st.heap 1).map
      (fun c => c.registered) = some [0] := by
  decide

/-! ## The rejected SUBSCRIBE -/

/-- C10 (counterexample): the SUBSCRIBE of `c1` to the malformed topic `a//b`
is rejected by `AddSubscription` with `MalformedTopic`, and the handler sends
no datagram at all: no SUBACK, of whatever return code, reaches the device. -/
theorem C10_counterexample :
    (twoClients.ag.tTree.AddSubscription (GetClient twoClients.heap twoClients.ag.clients 10)
      "a//b").err = some TreeError.MalformedTopic ∧
    (handle_SUBSCRIBE twoClients ⟨0, "a//b", 1, 7⟩ 1 10).fault = false ∧
    deviceWrites (handle_SUBSCRIBE twoClients ⟨0, "a//b", 1, 7⟩ 1 10).out = [] := by
  decide

/-- C10 (amended): for every SUBSCRIBE whose topic `AddSubscription` rejects,
`handle_SUBSCRIBE` causes no event: it sends nothing to the device (no SUBACK)
and opens no upstream subscription; the error is only logged, and the topic
tree is left as it was. -/
theorem C10_rejected_subscribe_is_silent (s : State) (sm : SubscribeMessage) (c : uConn)
    (r : uAddr) (e : TreeError)
    (herr : (s.ag.tTree.AddSubscription (GetClient s.heap s.ag.clients r) sm.TopicName).err
      = some e) :
    (handle_SUBSCRIBE s sm c r).out = [] ∧
    deviceWrites (handle_SUBSCRIBE s sm c r).out = [] ∧
    upstreamSubscribes (handle_SUBSCRIBE s sm c r).out = [] ∧
    (handle_SUBSCRIBE s sm c r).st.ag.tTree = s.ag.tTree := by
  have hout : (handle_SUBSCRIBE s sm c r).out = [] ∧
      (handle_SUBSCRIBE s sm c r).st.ag.tTree = s.ag.tTree := by
    unfold handle_SUBSCRIBE
    cases hix : subscribeTopicId s.ag.tIndex sm with
    | none => exact ⟨rfl, rfl⟩
    | some q =>
      obtain ⟨topicid, ix⟩ := q
      have hv : validSubscriptionTopic sm.TopicName = false := by
        cases hb : validSubscriptionTopic sm.TopicName with
        | false => rfl
        | true =>
          rw [(AddSubscription_err_none_iff _ _ _).2 hb] at herr
          exact absurd herr (by simp)
      have htree := (AddSubscription_malformed s.ag.tTree
        (GetClient s.heap s.ag.clients r) sm.TopicName hv).2.2
      simp [herr, htree]
  refine ⟨hout.1, ?_, ?_, hout.2⟩
  · rw [hout.1]; rfl
  · rw [hout.1]; rfl

theorem C10_rejected_subscribe_is_silent_witness :
    (twoClients.ag.tTree.AddSubscription (GetClient twoClients.heap twoClients.ag.clients 10)
      "a//b").err = some TreeError.MalformedTopic ∧
    (handle_SUBSCRIBE twoClients ⟨0, "a//b", 1, 7⟩ 1 10).out = [] :=
  ⟨by decide,
   (C10_rejected_subscribe_is_silent twoClients ⟨0, "a//b", 1, 7⟩ 1 10
      TreeError.MalformedTopic (by decide)).1⟩

/-! ## The index invariant is kept, and the model passes the unit tests -/

theorem subscribeTopicId_WF (ix : topicNames) (sm : SubscribeMessage) (hwf : ix.WF)
    (id : Nat) (ix1 : topicNames) (h : subscribeTopicId ix sm = some (id, ix1)) : ix1.WF := by
  unfold subscribeTopicId at h
  split at h
  · split at h
    · split at h
      · exact ix.putTopic_WF sm.TopicName hwf id ix1 h
      · simp at h; rw [← h.2]; exact hwf
    · simp at h; rw [← h.2]; exact hwf
  · simp at h; rw [← h.2]; exact hwf

theorem handle_SUBSCRIBE_keeps_WF (s : State) (sm : SubscribeMessage) (c : uConn) (r : uAddr)
    (hwf : s.ag.tIndex.WF) : (handle_SUBSCRIBE s sm c r).st.ag.tIndex.WF := by
  unfold handle_SUBSCRIBE
  cases hix : subscribeTopicId s.ag.tIndex sm with
  | none => exact hwf
  | some q =>
    obtain ⟨topicid, ix⟩ := q
    have h1 := subscribeTopicId_WF s.ag.tIndex sm hwf topicid ix hix
    simp only
    split
    · exact h1
    · split
      · exact h1
      · exact h1

/-- The expectations of `Test_SubscribersOf_2ash` (subscription `a/#`). -/
theorem Test_SubscribersOf_2ash :
    ["a", "b", "/a", "/b", "a/b", "b/a", "a/a", "a/b/c"].map
      (fun T => ((buildTree [(1, "a/#")]).SubscribersOf T).1.length) =
      [0, 0, 0, 0, 1, 0, 1, 1] := by
  decide

/-- The expectations of `Test_SubscribersOf_mix` (subscription `/a/+/c/#`). -/
theorem Test_SubscribersOf_mix :
    ["a", "b", "/a", "/b", "/a/b", "/b/a", "/a/a", "/a/b/c", "/a/b/z", "/a/b/c/d",
      "/a/b/c/d/e", "/a/b/c/d/e/f", "/a/b/z/d/e/f", "/a/b/b/c/d/e/f", "a/b/c/d",
      "a/b/c/d/e", "a/b/c/d/e/f"].map
      (fun T => ((buildTree [(1, "/a/+/c/#")]).SubscribersOf T).1.length) =
      [0, 0, 0, 0, 0, 0, 0, 0, 0, 1, 1, 1, 0, 0, 0, 0, 0] := by
  decide

/-- The expectations of `Test_SubscribersOf_multi` (four clients). -/
theorem Test_SubscribersOf_multi :
    ["a", "b", "/a", "/b", "/a/b", "/b/a", "/a/a", "/a/b/c", "/a/b/z", "/a/b/c/d",
      "/a/b/c/d/e", "/a/b/c/d/e/f", "/a/b/z/d/e/f", "/a/b/b/c/d/e/f", "a/b/c/d",
      "a/b/c/d/e", "a/b/c/d/e/f"].map
      (fun T => ((buildTree [(1, "a"), (2, "/a/+/c/d"), (3, "/a/+/c/#"),
        (4, "/a/+/c/d/+")]).SubscribersOf T).1.length) =
      [1, 0, 0, 0, 0, 0, 0, 0, 0, 2, 2, 1, 0, 0, 0, 0, 0] := by
  decide

/-- The expectations of the `Test_AddSubscription_…` tests on a new tree: the
returned `first` and whether an error is returned. -/
theorem Test_AddSubscription :
    ["alpha", "/alpha", "alpha/", "a/b/c/d", "a//b", "#", "/#", "a/#/b", "a/#/", "+",
      "/+/b/+"].map
      (fun t => ((NewTopicTree.AddSubscription 1 t).first,
        (NewTopicTree.AddSubscription 1 t).err.isSome)) =
      [(true, false), (true, false), (false, true), (true, false), (false, true),
       (true, false), (true, false), (false, true), (false, true), (true, false),
       (true, false)] := by
  decide

/-! ## CONNECT and the registry -/

/-- The scenario state `twoClients` is the state two CONNECTs leave. -/
theorem twoClients_reachable :
    (handle_CONNECT (handle_CONNECT NewAggGate ⟨"c1", false⟩ 1 10).st ⟨"c2", false⟩ 2 20).st.heap
      = twoClients.heap ∧
    (handle_CONNECT (handle_CONNECT NewAggGate ⟨"c1", false⟩ 1 10).st
      ⟨"c2", false⟩ 2 20).st.ag.clients = twoClients.ag.clients := by
  decide

theorem GetClientById_AddClient_same (id : String) (p : ClientRef) (cs : Clients) :
    GetClientById id (AddClient id p cs) = p := by
  induction cs with
  | nil => simp [AddClient, GetClientById]
  | cons e rest ih =>
    obtain ⟨k, q⟩ := e
    by_cases h : k = id
    · simp [AddClient, GetClientById, h]
    · simp [AddClient, GetClientById, h, ih]

theorem GetClientById_AddClient_ne (id k : String) (p : ClientRef) (cs : Clients)
    (hk : k ≠ id) : GetClientById k (AddClient id p cs) = GetClientById k cs := by
  induction cs with
  | nil => simp [AddClient, GetClientById, Ne.symm hk]
  | cons e rest ih =>
    obtain ⟨k2, q⟩ := e
    by_cases h : k2 = id
    · subst h
      simp [AddClient, GetClientById, Ne.symm hk]
    · by_cases h2 : k2 = k
      · subst h2
        simp [AddClient, GetClientById, h]
      · simp [AddClient, GetClientById, h, h2, ih]

theorem deref_append_new (heap : List Client) (cl : Client) :
    deref (heap ++ [cl]) (heap.length + 1) = some cl := by
  simp [deref]

theorem deref_fresh_none (heap : List Client) : deref heap (heap.length + 1) = none := by
  simp [deref]

theorem deref_append_old (heap : List Client) (cl x : Client) (q : ClientRef)
    (h : deref heap q = some x) : deref (heap ++ [cl]) q = some x := by
  obtain ⟨hq, hlt, hget⟩ := deref_some heap q x h
  unfold deref
  simp only [hq, if_false]
  rw [List.getElem?_append_left hlt]
  exact hget

/-- The client `GetClient` finds for an address has that address. -/
theorem GetClient_address (heap : List Client) (cs : Clients) (r : uAddr) (cl : Client)
    (h : deref heap (GetClient heap cs r) = some cl) : cl.Address = r := by
  induction cs with
  | nil => simp [GetClient, deref] at h
  | cons e rest ih =>
    obtain ⟨k, p⟩ := e
    unfold GetClient at h
    cases hp : deref heap p with
    | none =>
      rw [hp] at h
      exact ih h
    | some c0 =>
      rw [hp] at h
      by_cases ha : c0.Address = r
      · simp only [ha, if_true] at h
        rw [hp] at h
        simp at h
        rw [← h]
        exact ha
      · simp only [ha, if_false] at h
        exact ih h

/-- C13: `handle_CONNECT` with an empty client id leaves the whole state (so
the registry) unchanged and sends nothing; with a non-empty client id it binds
that id in the registry to a new session (a reference that was free before)
holding the sender's connection and remote address, leaves the bindings of
the other client ids, the existing sessions, the index and the tree as they
were, and writes exactly one datagram, the CONNACK with return code 0, to
that connection and address. -/
theorem C13_connect_iff_client_id (s : State) (cm : ConnectMessage) (c : uConn) (r : uAddr) :
    (cm.ClientId = "" →
      (handle_CONNECT s cm c r).st = s ∧ (handle_CONNECT s cm c r).out = [] ∧
        (handle_CONNECT s cm c r).fault = false) ∧
    (cm.ClientId ≠ "" →
      GetClientById cm.ClientId (handle_CONNECT s cm c r).st.ag.clients ≠ 0 ∧
      deref s.heap (GetClientById cm.ClientId (handle_CONNECT s cm c r).st.ag.clients) = none ∧
      deref (handle_CONNECT s cm c r).st.heap
        (GetClientById cm.ClientId (handle_CONNECT s cm c r).st.ag.clients) =
          some { ClientId := cm.ClientId, Conn := c, Address := r, registered := [],
                 pending := [] } ∧
      (∀ id, id ≠ cm.ClientId →
        GetClientById id (handle_CONNECT s cm c r).st.ag.clients =
          GetClientById id s.ag.clients) ∧
      (∀ q x, deref s.heap q = some x → deref (handle_CONNECT s cm c r).st.heap q = some x) ∧
      (handle_CONNECT s cm c r).st.ag.tIndex = s.ag.tIndex ∧
      (handle_CONNECT s cm c r).st.ag.tTree = s.ag.tTree ∧
      (handle_CONNECT s cm c r).out = [Event.write c r (Message.connack 0)] ∧
      deviceWrites (handle_CONNECT s cm c r).out = [(c, r, Message.connack 0)] ∧
      (handle_CONNECT s cm c r).fault = false) := by
  constructor
  · intro h
    simp [handle_CONNECT, h]
  · intro h
    have hrun : handle_CONNECT s cm c r =
        Run.mk
          (State.mk
            (AggGate.mk s.ag.tIndex s.ag.tTree
              (AddClient cm.ClientId (s.heap.length + 1) s.ag.clients))
            (s.heap ++ [NewClient cm.ClientId c r]))
          [Event.write c r (Message.connack 0)] false := by
      simp [handle_CONNECT, h, NewClient, Client.Write]
    rw [hrun]
    simp only [GetClientById_AddClient_same]
    refine ⟨Nat.succ_ne_zero _, deref_fresh_none s.heap, ?_, ?_, ?_, ?_, ?_, ?_, ?_, ?_⟩
    rotate_left 3
    iterate 5 first | rfl | trivial
    · exact deref_append_new s.heap _
    · intro id hid
      exact GetClientById_AddClient_ne cm.ClientId id _ _ hid
    · intro q x hq
      exact deref_append_old s.heap _ x q hq

theorem C13_connect_iff_client_id_witness :
    ((handle_CONNECT twoClients ⟨"", false⟩ 3 30).st = twoClients ∧
      (handle_CONNECT twoClients ⟨"", false⟩ 3 30).out = []) ∧
    (GetClientById "c3" (handle_CONNECT twoClients ⟨"c3", true⟩ 3 30).st.ag.clients ≠ 0 ∧
      deref (handle_CONNECT twoClients ⟨"c3", true⟩ 3 30).st.heap
        (GetClientById "c3" (handle_CONNECT twoClients ⟨"c3", true⟩ 3 30).st.ag.clients) =
          some { ClientId := "c3", Conn := 3, Address := 30, registered := [], pending := [] } ∧
      (handle_CONNECT twoClients ⟨"c3", true⟩ 3 30).out =
        [Event.write 3 30 (Message.connack 0)]) :=
  ⟨⟨((C13_connect_iff_client_id twoClients ⟨"", false⟩ 3 30).1 rfl).1,
    ((C13_connect_iff_client_id twoClients ⟨"", false⟩ 3 30).1 rfl).2.1⟩,
   ⟨((C13_connect_iff_client_id twoClients ⟨"c3", true⟩ 3 30).2 (by decide)).1,
    ((C13_connect_iff_client_id twoClients ⟨"c3", true⟩ 3 30).2 (by decide)).2.2.1,
    ((C13_connect_iff_client_id twoClients ⟨"c3", true⟩ 3 30).2 (by decide)).2.2.2.2.2.2.2.1⟩⟩

/-! ## REGISTER -/

theorem topicNames.contains_after_fresh (t : topicNames) (topic : String) :
    topicNames.containsTopic
      { contents := t.contents ++ [(t.next + 1, topic)], next := t.next + 1 } topic = true := by
  simp [topicNames.containsTopic]

/-- The topic id `handle_REGISTER` settles is the non-zero id the index holds
for the topic afterwards. -/
theorem registerTopicId_post (ix ix1 : topicNames) (topic : String) (id : Nat)
    (hwf : ix.WF) (h : registerTopicId ix topic = some (id, ix1)) :
    ix1.WF ∧ ix1.containsTopic topic = true ∧ ix1.getId topic = id ∧ id ≠ 0 := by
  unfold registerTopicId at h
  by_cases hc : ix.containsTopic topic = true
  · simp [hc] at h
    obtain ⟨h1, h2⟩ := h
    subst h2
    exact ⟨hwf, hc, h1, by rw [← h1]; exact ix.getId_ne_zero topic hwf hc⟩
  · have hc2 : ix.containsTopic topic = false := by simpa using hc
    simp only [hc2, Bool.not_false, if_true] at h
    have hwf1 := ix.putTopic_WF topic hwf id ix1 h
    simp [topicNames.putTopic, hc2] at h
    obtain ⟨_, h1, h2⟩ := h
    subst h2
    subst h1
    exact ⟨hwf1, ix.contains_after_fresh topic, ix.getId_after_fresh topic hc2,
      Nat.succ_ne_zero _⟩

/-- The topic id of a REGISTER on a well-formed index that holds the topic or
has an id left. -/
theorem registerTopicId_eq (ix : topicNames) (topic : String)
    (hroom : ix.containsTopic topic = true ∨ ix.next < 0xFFFF) :
    registerTopicId ix topic =
      if ix.containsTopic topic = true then some (ix.getId topic, ix)
      else some (ix.next + 1,
        { contents := ix.contents ++ [(ix.next + 1, topic)], next := ix.next + 1 }) := by
  unfold registerTopicId
  by_cases hc : ix.containsTopic topic = true
  · simp [hc]
  · have hc2 : ix.containsTopic topic = false := by simpa using hc
    have hr : ix.next < 0xFFFF := by
      rcases hroom with h | h
      · exact absurd h hc
      · exact h
    simp [hc2, ix.putTopic_fresh topic hc2 hr]

/-- The run of a REGISTER from a sender with a session, given the topic id
the first lines settle. -/
theorem handle_REGISTER_session (s : State) (rm : RegisterMessage) (c : uConn) (r : uAddr)
    (cl : Client) (topicid : Nat) (ix : topicNames)
    (hid : registerTopicId s.ag.tIndex rm.TopicName = some (topicid, ix))
    (hcl : deref s.heap (GetClient s.heap s.ag.clients r) = some cl) :
    (handle_REGISTER s rm c r).fault = false ∧
    (handle_REGISTER s rm c r).out =
      [Event.write cl.Conn cl.Address (Message.regack topicid rm.MsgId 0)] ∧
    (handle_REGISTER s rm c r).st.ag.tIndex = ix ∧
    (handle_REGISTER s rm c r).st.ag.clients = s.ag.clients ∧
    (handle_REGISTER s rm c r).st.heap =
      s.heap.set (GetClient s.heap s.ag.clients r - 1) (cl.Register topicid) := by
  unfold handle_REGISTER
  simp only [hid, hcl]
  simp [State.setClient, Client.Write, Client.Register]

theorem Client.Registered_Register (cl : Client) (topicid : Nat) :
    (cl.Register topicid).Registered topicid = true := by
  unfold Client.Register Client.Registered
  by_cases h : topicid ∈ cl.registered <;> simp [h]

/-- C12: a REGISTER carrying topic name `t` and message id `m`, from a sender
with a session, on a well-formed index that holds `t` or has an id left:
`handle_REGISTER` does not panic and sends exactly one datagram, to the
sender's client (whose address is the sender's), the REGACK with return code
0, message id `m` and a topic id that is the index's non-zero id for `t`: the
existing id, index unchanged, when `t` was indexed, and otherwise a newly
assigned id that was bound to no topic before.  Afterwards the client is
registered for that id, and a further REGISTER for `t` from any sender with
a session is answered with the same topic id. -/
theorem C12_register_answers_regack (s : State) (rm : RegisterMessage) (c : uConn) (r : uAddr)
    (cl : Client)
    (hsess : deref s.heap (GetClient s.heap s.ag.clients r) = some cl)
    (hwf : s.ag.tIndex.WF)
    (hroom : s.ag.tIndex.containsTopic rm.TopicName = true ∨ s.ag.tIndex.next < 0xFFFF) :
    (handle_REGISTER s rm c r).fault = false ∧
    cl.Address = r ∧
    ∃ topicid,
      deviceWrites (handle_REGISTER s rm c r).out =
        [(cl.Conn, cl.Address, Message.regack topicid rm.MsgId 0)] ∧
      topicid ≠ 0 ∧
      topicid = (handle_REGISTER s rm c r).st.ag.tIndex.getId rm.TopicName ∧
      (s.ag.tIndex.containsTopic rm.TopicName = true →
        topicid = s.ag.tIndex.getId rm.TopicName ∧
        (handle_REGISTER s rm c r).st.ag.tIndex = s.ag.tIndex) ∧
      (s.ag.tIndex.containsTopic rm.TopicName = false →
        s.ag.tIndex.getTopic topicid = none ∧
        (handle_REGISTER s rm c r).st.ag.tIndex.getTopic topicid = some rm.TopicName) ∧
      (∃ cl1, deref (handle_REGISTER s rm c r).st.heap (GetClient s.heap s.ag.clients r)
          = some cl1 ∧ cl1.Registered topicid = true) ∧
      (∀ (rm2 : RegisterMessage) (c2 : uConn) (r2 : uAddr) (cl2 : Client),
        rm2.TopicName = rm.TopicName →
        deref (handle_REGISTER s rm c r).st.heap
          (GetClient (handle_REGISTER s rm c r).st.heap
            (handle_REGISTER s rm c r).st.ag.clients r2) = some cl2 →
        deviceWrites (handle_REGISTER (handle_REGISTER s rm c r).st rm2 c2 r2).out =
          [(cl2.Conn, cl2.Address, Message.regack topicid rm2.MsgId 0)]) := by
  have heq := registerTopicId_eq s.ag.tIndex rm.TopicName hroom
  obtain ⟨topicid, ix, hid⟩ : ∃ topicid ix,
      registerTopicId s.ag.tIndex rm.TopicName = some (topicid, ix) := by
    by_cases hc : s.ag.tIndex.containsTopic rm.TopicName = true
    · rw [if_pos hc] at heq; exact ⟨_, _, heq⟩
    · rw [if_neg hc] at heq; exact ⟨_, _, heq⟩
  obtain ⟨hwf1, hcont1, hget1, hne⟩ := registerTopicId_post _ _ _ _ hwf hid
  obtain ⟨h1, h2, h3, h4, h5⟩ := handle_REGISTER_session s rm c r cl topicid ix hid hsess
  refine ⟨h1, GetClient_address _ _ _ _ hsess, topicid, ?_, hne, ?_, ?_, ?_, ?_, ?_⟩
  · rw [h2]; rfl
  · rw [h3, hget1]
  · intro hc
    rw [if_pos hc, hid] at heq
    simp only [Option.some.injEq, Prod.mk.injEq] at heq
    exact ⟨heq.1, by rw [h3]; exact heq.2⟩
  · intro hc
    have hc2 : ¬ s.ag.tIndex.containsTopic rm.TopicName = true := by simp [hc]
    rw [if_neg hc2, hid] at heq
    simp only [Option.some.injEq, Prod.mk.injEq] at heq
    obtain ⟨e1, e2⟩ := heq
    subst e1
    refine ⟨s.ag.tIndex.getTopic_fresh_none hwf, ?_⟩
    rw [h3, e2]
    exact s.ag.tIndex.getTopic_after_fresh rm.TopicName hwf
  · refine ⟨cl.Register topicid, ?_, cl.Registered_Register topicid⟩
    rw [h5]
    exact deref_set_same _ _ cl _ hsess
  · intro rm2 c2 r2 cl2 htop hsess2
    have hid2 : registerTopicId (handle_REGISTER s rm c r).st.ag.tIndex rm2.TopicName =
        some (topicid, ix) := by
      rw [h3, htop]
      unfold registerTopicId
      simp [hcont1, hget1]
    obtain ⟨_, g2, _⟩ := handle_REGISTER_session _ rm2 c2 r2 cl2 topicid ix hid2 hsess2
    rw [g2]; rfl

theorem C12_register_answers_regack_witness :
    (deref twoClients.heap (GetClient twoClients.heap twoClients.ag.clients 10) =
        some (NewClient "c1" 1 10) ∧ twoClients.ag.tIndex.next < 0xFFFF) ∧
    (handle_REGISTER twoClients ⟨"a", 5⟩ 1 10).fault = false ∧
    ∃ topicid,
      deviceWrites (handle_REGISTER twoClients ⟨"a", 5⟩ 1 10).out =
        [(1, 10, Message.regack topicid 5 0)] ∧ topicid ≠ 0 :=
  ⟨by decide,
   (C12_register_answers_regack twoClients ⟨"a", 5⟩ 1 10 (NewClient "c1" 1 10)
      (by decide) topicNames.new_WF (Or.inr (by decide))).1,
   (C12_register_answers_regack twoClients ⟨"a", 5⟩ 1 10 (NewClient "c1" 1 10)
      (by decide) topicNames.new_WF (Or.inr (by decide))).2.2.imp
     (fun _ h => ⟨h.1, h.2.1⟩)⟩

/-! ## SUBSCRIBE with another topic id type -/

/-- Every SUBACK `handle_SUBSCRIBE` writes has return code 0. -/
theorem handle_SUBSCRIBE_suback_code (s : State) (sm : SubscribeMessage) (c : uConn)
    (r : uAddr) (conn : uConn) (addr : uAddr) (rc q t m : Nat)
    (h : Event.write conn addr (Message.suback rc q t m) ∈ (handle_SUBSCRIBE s sm c r).out) :
    rc = 0 := by
  unfold handle_SUBSCRIBE at h
  cases hix : subscribeTopicId s.ag.tIndex sm with
  | none => simp [hix] at h
  | some p =>
    obtain ⟨topicid, ix⟩ := p
    simp only [hix] at h
    cases herr : (s.ag.tTree.AddSubscription (GetClient s.heap s.ag.clients r) sm.TopicName).err with
    | some e => simp [herr] at h
    | none =>
      simp only [herr] at h
      cases hd : deref s.heap (GetClient s.heap s.ag.clients r) with
      | none =>
        simp only [hd] at h
        split at h <;> simp at h
      | some cl =>
        simp only [hd] at h
        split at h
        · simp at h
          exact h.2.2.1
        · simp at h
          exact h.2.2.1

/-- C11 (counterexample): the SUBSCRIBE of `c1` with topic id type 2 and topic
name `ab` is answered with a SUBACK whose return code is 0, and `c1` is added
to the topic tree as a subscriber of `ab`. -/
theorem C11_counterexample :
    (handle_SUBSCRIBE twoClients ⟨2, "ab", 1, 7⟩ 1 10).out =
      [Event.startSubscription "ab" 2, Event.write 1 10 (Message.suback 0 1 0 7)] ∧
    (twoClients.ag.tTree.SubscribersOf "ab").1 = [] ∧
    ((handle_SUBSCRIBE twoClients ⟨2, "ab", 1, 7⟩ 1 10).st.ag.tTree.SubscribersOf "ab").1 = [1] := by
  decide

/-- C11 (amended): for every SUBSCRIBE whose topic id type is not 0,
`handle_SUBSCRIBE` leaves the index unchanged and adds the sender's client to
the topic tree under the message's topic name as `AddSubscription` does; when
`AddSubscription` accepts the name, a sender with a session is answered with
exactly one datagram, the SUBACK with return code 0, the request's QoS and
msg id and topic id 0; when it rejects the name nothing is sent; and no
SUBACK with a return code other than 0 is written. -/
theorem C11_other_topic_id_type (s : State) (sm : SubscribeMessage) (c : uConn) (r : uAddr)
    (hty : sm.TopicIdType ≠ 0) :
    (handle_SUBSCRIBE s sm c r).st.ag.tIndex = s.ag.tIndex ∧
    (handle_SUBSCRIBE s sm c r).st.ag.tTree =
      (s.ag.tTree.AddSubscription (GetClient s.heap s.ag.clients r) sm.TopicName).tree ∧
    ((s.ag.tTree.AddSubscription (GetClient s.heap s.ag.clients r) sm.TopicName).err = none →
      ∀ cl, deref s.heap (GetClient s.heap s.ag.clients r) = some cl →
        (handle_SUBSCRIBE s sm c r).fault = false ∧
        deviceWrites (handle_SUBSCRIBE s sm c r).out =
          [(c, r, Message.suback 0 sm.QoS 0 sm.MsgId)]) ∧
    ((s.ag.tTree.AddSubscription (GetClient s.heap s.ag.clients r) sm.TopicName).err ≠ none →
      (handle_SUBSCRIBE s sm c r).out = []) ∧
    (∀ conn addr rc q t m,
      Event.write conn addr (Message.suback rc q t m) ∈ (handle_SUBSCRIBE s sm c r).out →
        rc = 0) := by
  have hid : subscribeTopicId s.ag.tIndex sm = some (0, s.ag.tIndex) := by
    simp [subscribeTopicId, hty]
  have hreach : (subscribeTopicId s.ag.tIndex sm).isSome = true := by rw [hid]; rfl
  refine ⟨?_, handle_SUBSCRIBE_tree s sm c r hreach, ?_, ?_, ?_⟩
  · unfold handle_SUBSCRIBE
    simp only [hid]
    cases (s.ag.tTree.AddSubscription (GetClient s.heap s.ag.clients r) sm.TopicName).err with
    | some e => rfl
    | none =>
      simp only
      cases deref s.heap (GetClient s.heap s.ag.clients r) <;> rfl
  · intro herr cl hcl
    obtain ⟨h1, h2, _, _⟩ := handle_SUBSCRIBE_accepted s sm c r cl 0 _ hid herr hcl
    exact ⟨h1, h2⟩
  · intro herr
    cases he : (s.ag.tTree.AddSubscription (GetClient s.heap s.ag.clients r) sm.TopicName).err with
    | none => exact absurd he herr
    | some e =>
      unfold handle_SUBSCRIBE
      simp [hid, he]
  · intro conn addr rc q t m h
    exact handle_SUBSCRIBE_suback_code s sm c r conn addr rc q t m h

theorem C11_other_topic_id_type_witness :
    (2 : Nat) ≠ 0 ∧
    ((handle_SUBSCRIBE twoClients ⟨2, "ab", 1, 7⟩ 1 10).fault = false ∧
      deviceWrites (handle_SUBSCRIBE twoClients ⟨2, "ab", 1, 7⟩ 1 10).out =
        [(1, 10, Message.suback 0 1 0 7)]) :=
  ⟨by decide,
   (C11_other_topic_id_type twoClients ⟨2, "ab", 1, 7⟩ 1 10 (by decide)).2.2.1 (by decide)
     (NewClient "c1" 1 10) (by decide)⟩

/-! ## Messages from an address without a session -/

/-- A REGACK from an address without a session ends in a panic. -/
theorem handle_REGACK_no_session (s : State) (ra : RegackMessage) (r : uAddr)
    (h : deref s.heap (GetClient s.heap s.ag.clients r) = none) :
    (handle_REGACK s ra r).fault = true ∧ (handle_REGACK s ra r).out = [] := by
  simp [handle_REGACK, h]

/-- A REGISTER from an address without a session ends in a panic. -/
theorem handle_REGISTER_no_session (s : State) (rm : RegisterMessage) (c : uConn) (r : uAddr)
    (h : deref s.heap (GetClient s.heap s.ag.clients r) = none) :
    (handle_REGISTER s rm c r).fault = true ∧ (handle_REGISTER s rm c r).out = [] := by
  unfold handle_REGISTER
  cases hix : registerTopicId s.ag.tIndex rm.TopicName with
  | none => simp [hix]
  | some p =>
    obtain ⟨topicid, ix⟩ := p
    simp [hix, h]

/-- A SUBSCRIBE from an address without a session, for a topic that
`AddSubscription` accepts, ends in a panic before any SUBACK is written. -/
theorem handle_SUBSCRIBE_no_session (s : State) (sm : SubscribeMessage) (c : uConn) (r : uAddr)
    (h : deref s.heap (GetClient s.heap s.ag.clients r) = none)
    (herr : (s.ag.tTree.AddSubscription (GetClient s.heap s.ag.clients r) sm.TopicName).err
      = none) :
    (handle_SUBSCRIBE s sm c r).fault = true ∧
      deviceWrites (handle_SUBSCRIBE s sm c r).out = [] := by
  unfold handle_SUBSCRIBE
  cases hix : subscribeTopicId s.ag.tIndex sm with
  | none => simp [hix, deviceWrites]
  | some p =>
    obtain ⟨topicid, ix⟩ := p
    simp only [hix, herr, h]
    split <;> simp [deviceWrites]

/-- C14: on the gateway with the sessions of `c1` (address 10) and `c2`
(address 20), `GetClient` finds no session for address 99 (`nil`), and each of
REGISTER, REGACK and SUBSCRIBE from address 99 ends in a panic: `Register`
resp. `FetchPendingMessage` is called on the absent client.  The SUBSCRIBE
has by then opened the upstream subscription and stored the `nil` client in
the topic tree, and no REGACK or SUBACK is written.  The claim says the
handlers complete without a fault. -/
theorem C14_no_session_panics :
    GetClient twoClients.heap twoClients.ag.clients 99 = 0 ∧
    deref twoClients.heap (GetClient twoClients.heap twoClients.ag.clients 99) = none ∧
    (handle_REGISTER twoClients ⟨"a", 5⟩ 9 99).fault = true ∧
    (handle_REGISTER twoClients ⟨"a", 5⟩ 9 99).out = [] ∧
    (handle_REGACK twoClients ⟨1, 0, 0⟩ 99).fault = true ∧
    (handle_REGACK twoClients ⟨1, 0, 0⟩ 99).out = [] ∧
    (handle_SUBSCRIBE twoClients ⟨0, "a", 0, 1⟩ 9 99).fault = true ∧
    (handle_SUBSCRIBE twoClients ⟨0, "a", 0, 1⟩ 9 99).out = [Event.startSubscription "a" 2] ∧
    ((handle_SUBSCRIBE twoClients ⟨0, "a", 0, 1⟩ 9 99).st.ag.tTree.SubscribersOf "a").1 = [0] := by
  decide

end Gateway
